import Mathlib

/-!
Verification of the agentic RAG pipeline (`src/agent`, `src/services`).

The Python sources are shallowly embedded: pure functions become Lean
functions, floating-point scores become exact rationals (`ℚ`), Python
dicts preserving insertion order become association lists, and every
external service call (LLM, embedder, vector store, reranker, langdetect)
is a parameter supplied by an `Env` record.  Python `str.strip`,
`str.lower` and the `\s`/`\w` regex classes are modelled on the ASCII,
Cyrillic and Uzbek alphabets that this system handles.
-/

namespace AgenticRag

/-! ### Python string primitives (on `List Char` / `String`) -/

/-- Python whitespace (`str.strip`, `str.split`, regex `\s`), ASCII part. -/
def isWsChar (c : Char) : Bool :=
  c = ' ' || c = '\t' || c = '\n' || c = '\r' || c = '\x0b' || c = '\x0c'

/-- Drop trailing characters satisfying `p` (Python `str.rstrip`). -/
def dropTrailing (p : Char → Bool) (l : List Char) : List Char :=
  (l.reverse.dropWhile p).reverse

/-- Python `str.strip()` on the character list. -/
def stripL (l : List Char) : List Char :=
  dropTrailing isWsChar (l.dropWhile isWsChar)

def pyStrip (s : String) : String := ⟨stripL s.data⟩

/-- Case-folding table for Python `str.lower()` restricted to the ASCII and
Cyrillic (incl. Uzbek Ў/Қ/Ғ/Ҳ) alphabets this system handles. -/
def lowerTable : List (Char × Char) :=
  [('A', 'a'), ('B', 'b'), ('C', 'c'), ('D', 'd'), ('E', 'e'), ('F', 'f'),
   ('G', 'g'), ('H', 'h'), ('I', 'i'), ('J', 'j'), ('K', 'k'), ('L', 'l'),
   ('M', 'm'), ('N', 'n'), ('O', 'o'), ('P', 'p'), ('Q', 'q'), ('R', 'r'),
   ('S', 's'), ('T', 't'), ('U', 'u'), ('V', 'v'), ('W', 'w'), ('X', 'x'),
   ('Y', 'y'), ('Z', 'z'),
   ('А', 'а'), ('Б', 'б'), ('В', 'в'), ('Г', 'г'), ('Д', 'д'), ('Е', 'е'),
   ('Ж', 'ж'), ('З', 'з'), ('И', 'и'), ('Й', 'й'), ('К', 'к'), ('Л', 'л'),
   ('М', 'м'), ('Н', 'н'), ('О', 'о'), ('П', 'п'), ('Р', 'р'), ('С', 'с'),
   ('Т', 'т'), ('У', 'у'), ('Ф', 'ф'), ('Х', 'х'), ('Ц', 'ц'), ('Ч', 'ч'),
   ('Ш', 'ш'), ('Щ', 'щ'), ('Ъ', 'ъ'), ('Ы', 'ы'), ('Ь', 'ь'), ('Э', 'э'),
   ('Ю', 'ю'), ('Я', 'я'), ('Ё', 'ё'), ('Ў', 'ў'), ('Қ', 'қ'), ('Ғ', 'ғ'),
   ('Ҳ', 'ҳ')]

def toLowerPy (c : Char) : Char := (lowerTable.lookup c).getD c

def lowerL (l : List Char) : List Char := l.map toLowerPy

def pyLower (s : String) : String := ⟨lowerL s.data⟩

/-- `cleaned.rstrip("!?.,:;")` from `_classify_intent`. -/
def trailingPunct : List Char := ['!', '?', '.', ',', ':', ';']

def rstripPunct (l : List Char) : List Char :=
  dropTrailing (fun c => trailingPunct.contains c) l

/-- Python `str.split()` (split on whitespace runs, no empty words). -/
def wordsAux : List Char → List Char → List String
  | [], acc => if acc.isEmpty then [] else [⟨acc.reverse⟩]
  | c :: rest, acc =>
    if isWsChar c then
      if acc.isEmpty then wordsAux rest []
      else (⟨acc.reverse⟩ : String) :: wordsAux rest []
    else wordsAux rest (c :: acc)

def pySplitWs (s : String) : List String := wordsAux s.data []

/-- Python `needle in haystack` for single characters. -/
def strHasChar (s : String) (c : Char) : Bool := s.data.contains c

/-- Python `s.startswith(p)`. -/
def strStartsWith (p s : String) : Bool := s.data.take p.data.length == p.data

/-! ### Intent detection (`src/agent/nodes.py`) -/

def GREETING_PATTERNS : List String :=
  ["salom", "assalomu alaykum", "assalom", "hayrli kun", "hayrli tong",
   "hayrli kech", "xayrli kun", "xayrli tong", "xayrli kech",
   "привет", "здравствуйте", "здравствуй", "добрый день", "доброе утро",
   "добрый вечер", "приветствую", "хай",
   "hello", "hi", "hey", "good morning", "good afternoon", "good evening",
   "greetings"]

def THANKS_PATTERNS : List String :=
  ["rahmat", "raxmat", "tashakkur",
   "спасибо", "благодарю",
   "thanks", "thank you", "thx"]

def GREETING_RESPONSES : List (String × String) :=
  [("uz", "Assalomu alaykum! HR siyosatlari bo\x27yicha qanday yordam bera olaman?"),
   ("ru", "Здравствуйте! Чем могу помочь по вопросам HR политики?"),
   ("en", "Hello! How can I help you with HR policies?")]

def THANKS_RESPONSES : List (String × String) :=
  [("uz", "Arzimaydi! Yana savollaringiz bo\x27lsa, bemalol murojaat qiling."),
   ("ru", "Пожалуйста! Если у вас будут ещё вопросы, обращайтесь."),
   ("en", "You\x27re welcome! Feel free to ask if you have more questions.")]

/-- `_EMOJI_PATTERN`: the character class of the emoji-only regex (the
pattern is `^[class]+$`, and the class contains `\s`). -/
def isEmojiChar (c : Char) : Bool :=
  let v := c.toNat
  decide ((0x1F600 ≤ v ∧ v ≤ 0x1F64F) ∨ (0x1F300 ≤ v ∧ v ≤ 0x1F5FF) ∨
    (0x1F680 ≤ v ∧ v ≤ 0x1F6FF) ∨ (0x1F1E0 ≤ v ∧ v ≤ 0x1F1FF) ∨
    (0x2702 ≤ v ∧ v ≤ 0x27B0) ∨ (0xFE00 ≤ v ∧ v ≤ 0xFE0F) ∨
    (0x1F900 ≤ v ∧ v ≤ 0x1F9FF) ∨ (0x1FA00 ≤ v ∧ v ≤ 0x1FA6F) ∨
    (0x1FA70 ≤ v ∧ v ≤ 0x1FAFF) ∨ (0x2600 ≤ v ∧ v ≤ 0x26FF) ∨
    v = 0x200D ∨ v = 0x2764) || isWsChar c

/-- `_EMOJI_PATTERN.match(text.strip())`: the anchored `^[...]+$` pattern
matches iff the stripped text is non-empty and all its characters are in
the class. -/
def emojiOnly (text : String) : Bool :=
  let s := stripL text.data
  !s.isEmpty && s.all isEmojiChar

/-- Multi-word greeting patterns (`p` with `" " in p`) that `cleaned` starts
with; used by the short-message branch. -/
def startsWithMultiword (patterns : List String) (cleaned : String) : Bool :=
  (patterns.filter (fun p => p.data.contains ' ')).any
    (fun p => strStartsWith p cleaned)

/-- `cleaned`: trim, lowercase, strip trailing punctuation. -/
def normalizedQuery (text : String) : String :=
  ⟨rstripPunct (lowerL (stripL text.data))⟩

/-- `first_word in _GREETING_PATTERNS or any(cleaned.startswith(p) ...)`. -/
def greetingStart (cleaned first_word : String) : Bool :=
  GREETING_PATTERNS.contains first_word ||
    startsWithMultiword GREETING_PATTERNS cleaned

def thanksStart (cleaned first_word : String) : Bool :=
  THANKS_PATTERNS.contains first_word ||
    startsWithMultiword THANKS_PATTERNS cleaned

/-- `any(c in cleaned for c in [",", "?"])`. -/
def hasPunctuation (cleaned : String) : Bool :=
  strHasChar cleaned ',' || strHasChar cleaned '?'

/-- `_classify_intent` (`nodes.py:71-103`).  The result is `none` exactly when
Python would raise `IndexError` on `words[0]` (empty word list in the
short-message branch); totality is proved below. -/
def classify_intent (text : String) : Option String :=
  let cleaned : String := normalizedQuery text
  if emojiOnly text then some "greeting"
  else if cleaned.data.isEmpty then some "greeting"
  else if GREETING_PATTERNS.contains cleaned then some "greeting"
  else if THANKS_PATTERNS.contains cleaned then some "thanks"
  else
    let words := pySplitWs cleaned
    if words.length ≤ 3 then
      match words with
      | [] => none
      | first_word :: _ =>
        if greetingStart cleaned first_word then
          if !hasPunctuation cleaned || words.length ≤ 2 then
            some "greeting"
          else if thanksStart cleaned first_word then some "thanks"
          else some "hr_query"
        else if thanksStart cleaned first_word then some "thanks"
        else some "hr_query"
    else some "hr_query"

/-! ### Language detection (`src/agent/prompt_factory.py`) -/

def isCyrLower (c : Char) : Bool :=
  decide ((0x430 ≤ c.toNat ∧ c.toNat ≤ 0x44F) ∨ c.toNat = 0x451)

def isLatLower (c : Char) : Bool := decide (0x61 ≤ c.toNat ∧ c.toNat ≤ 0x7A)

/-- The `[ўқғҳ]` class of Uzbek-specific Cyrillic letters. -/
def isUzbChar (c : Char) : Bool :=
  decide (c.toNat = 0x45E ∨ c.toNat = 0x49B ∨ c.toNat = 0x493 ∨ c.toNat = 0x4B3)

/-- `_detect_language_regex`: character-class counting fallback. -/
def detect_language_regex (text : String) : String :=
  let tl := lowerL text.data
  let cyrillic_count := (tl.filter isCyrLower).length
  let latin_count := (tl.filter isLatLower).length
  let uzbek_chars := (tl.filter isUzbChar).length
  let total_letters := cyrillic_count + latin_count + uzbek_chars
  if total_letters = 0 then "en"
  else if 0 < uzbek_chars then "uz"
  else if latin_count < cyrillic_count then "ru"
  else "en"

def VALID_LANG_CODES : List String := ["en", "ru", "uz"]

/-- `detect_language`: the external `langdetect` statistical detector is the
parameter `langdetect` (`none` models `LangDetectException`). -/
def detect_language (langdetect : String → Option String) (text : String) :
    String :=
  if (stripL text.data).length < 10 then detect_language_regex text
  else
    match langdetect text with
    | some code0 =>
      let code := if code0 = "tr" then "uz" else code0
      if VALID_LANG_CODES.contains code then code
      else detect_language_regex text
    | none => detect_language_regex text

/-! ### Data model: documents and their payload metadata -/

/-- Payload metadata carried by a retrieved passage (`metadata` dict). -/
structure Meta where
  language : String := ""
  parent_text : Option String := none
  document_id : Option String := none
  chunk_index : Option Int := none
  parent_chunk_index : Option Int := none
  page_number : Option Nat := none
  page_start : Option Nat := none
  page_end : Option Nat := none
deriving DecidableEq, Inhabited

/-- A document entry of the turn state (`documents` list).  Scores are exact
rationals standing for the Python floats.  `id := ""` models a missing
`"id"` key (`doc.get("id", "")`). -/
structure Doc where
  id : String := ""
  text : String := ""
  score : ℚ := 0
  retrieval_score : ℚ := 0
  combined_score : ℚ := 0
  language_match : Option Bool := none
  metadata : Meta := {}
deriving DecidableEq, Inhabited

/-- Python truthiness of an optional number (`0`/`None` are falsy). -/
def truthyNat : Option Nat → Bool
  | some n => n ≠ 0
  | none => false

/-- Python truthiness of an optional string (`""`/`None` are falsy). -/
def truthyStr : Option String → Bool
  | some s => !s.isEmpty
  | none => false

/-! ### Grader (spec §4.7) -/

/-- Modelled from the spec: `graph.py:67` wires `make_grade_documents_node()`
with no argument, but the only `make_grade_documents_node` under `src/`
(`nodes.py:357`) is the superseded LLM-grader variant requiring an `llm`
parameter; the zero-argument score-threshold variant the spec declares
normative is not in `src/`.  Spec §4.7: keep documents with reranker
`score ≥ 0.15`; otherwise keep top 3 if at least 3 exist, else top 1;
empty input gives empty output. -/
def grade_documents (documents : List Doc) : List Doc :=
  if documents.isEmpty then []
  else
    let kept := documents.filter (fun d => (15 : ℚ) / 100 ≤ d.score)
    if !kept.isEmpty then kept
    else if 3 ≤ documents.length then documents.take 3
    else documents.take 1

/-! ### Stable descending sort (Python `sorted(..., reverse=True)` /
`list.sort(..., reverse=True)`, which are stable) -/

def insertDescBy (key : α → ℚ) (x : α) : List α → List α
  | [] => [x]
  | y :: ys => if key x < key y then y :: insertDescBy key x ys else x :: y :: ys

def pySortDesc (key : α → ℚ) : List α → List α
  | [] => []
  | x :: xs => insertDescBy key x (pySortDesc key xs)

/-! ### Context window management (`src/services/context_manager.py`) -/

/-- `CONTEXT_WINDOWS`, in source (insertion) order. -/
def CONTEXT_WINDOWS : List (String × Nat) :=
  [("claude-opus-4", 200000), ("claude-opus-4-6", 200000),
   ("claude-sonnet-4", 200000), ("claude-sonnet-4-5", 200000),
   ("claude-sonnet-4-20250514", 200000), ("claude-3-5-sonnet", 200000),
   ("claude-3-opus", 200000), ("claude-3-sonnet", 200000),
   ("claude-3-haiku", 200000),
   ("gpt-4o", 128000), ("gpt-4o-mini", 128000), ("gpt-4-turbo", 128000),
   ("gpt-4", 8192), ("gpt-3.5-turbo", 16385),
   ("llama3.1", 128000), ("llama3.2", 128000), ("mistral", 32000),
   ("mixtral", 32000)]

/-- Python `needle in haystack` for substrings. -/
def strContainsSub (hay needle : List Char) : Bool :=
  hay.tails.any (fun t => t.take needle.length == needle)

/-- `get_context_budget`.  Python computes `max(total − reserve, 1000)` on
ints; with truncated `Nat` subtraction the clamp at `1000` gives the same
value. -/
def get_context_budget (model_name : String) (reserve_output : Nat := 4000) :
    Nat :=
  let lowered := lowerL model_name.data
  let total_tokens :=
    match CONTEXT_WINDOWS.find? (fun kv => strContainsSub lowered kv.1.data) with
    | some kv => kv.2
    | none => 8000
  max (total_tokens - reserve_output) 1000

/-- `create_token_counter`: the `tiktoken` branch (for model names containing
`gpt`) falls back to the same heuristic when the library is unavailable; we
model the heuristic `max(len(text) // 4, 1)` for every model. -/
def token_counter (text : String) : Nat := max (text.length / 4) 1

/-- The page part of the formatted document string. -/
def pageInfo (meta : Meta) : String :=
  if truthyNat meta.page_number then
    " (page " ++ toString (meta.page_number.getD 0) ++ ")"
  else if truthyNat meta.page_start then
    let pe := match meta.page_end with
      | some n => toString n
      | none => "?"
    " (pages " ++ toString (meta.page_start.getD 0) ++ "-" ++ pe ++ ")"
  else ""

/-- `meta.get("parent_text") or doc.get("text", "")`. -/
def docContextText (doc : Doc) : String :=
  match doc.metadata.parent_text with
  | some p => if !p.isEmpty then p else doc.text
  | none => doc.text

/-- The greedy packing loop of `fit_documents_to_budget` (lines 129-159).
Returns `(context_parts, used_tokens, included_docs, truncated)`, where
`truncated` records that the first-document truncation branch ran. -/
def fitLoop (tokenizer : String → Nat) (available_for_docs : Nat) :
    List Doc → List String → Nat → Nat → List String × Nat × Nat × Bool
  | [], parts, used, included => (parts, used, included, false)
  | doc :: rest, parts, used, included =>
    let doc_text := docContextText doc
    let formatted := "[" ++ toString (included + 1) ++ "]" ++
      pageInfo doc.metadata ++ ": " ++ doc_text
    let doc_tokens := tokenizer formatted
    if used + doc_tokens ≤ available_for_docs then
      fitLoop tokenizer available_for_docs rest (parts ++ [formatted])
        (used + doc_tokens) (included + 1)
    else if included = 0 then
      let max_chars := available_for_docs * 4
      let truncated_text : String := ⟨doc_text.data.take max_chars⟩ ++ "..."
      let formatted2 := "[1]" ++ pageInfo doc.metadata ++ ": " ++ truncated_text
      (parts ++ [formatted2], tokenizer formatted2, 1, true)
    else (parts, used, included, false)

/-- `system_tokens + query_tokens + history_tokens + template_overhead`.
An empty system prompt counts as 500 tokens (`if system_prompt else 500`). -/
def reservedTokens (query : String) (conversation_history : List String)
    (system_prompt : String) : Nat :=
  let system_tokens :=
    if !system_prompt.isEmpty then token_counter system_prompt else 500
  let query_tokens := token_counter query
  let history_tokens := (conversation_history.map token_counter).sum
  system_tokens + query_tokens + history_tokens + 200

/-- `available_for_docs = max(budget - reserved_tokens, 1000)`. -/
def availableForDocs (model_name : String) (reserved : Nat) : Nat :=
  max (get_context_budget model_name - reserved) 1000

/-- Packing telemetry.  `utilization` is kept as the exact ratio×100 (Python
rounds it to one decimal). -/
structure PackMeta where
  total_docs : Nat
  included_docs : Nat
  tokens_used : Nat
  tokens_available : Nat
  tokens_reserved : Nat
  utilization : ℚ
deriving DecidableEq, Inhabited

/-- The full packing result, including the internal `truncated` flag. -/
def fitResult (documents : List Doc) (query : String)
    (conversation_history : List String) (model_name : String)
    (system_prompt : String) : List String × Nat × Nat × Bool :=
  let reserved := reservedTokens query conversation_history system_prompt
  fitLoop token_counter (availableForDocs model_name reserved)
    (pySortDesc Doc.score documents) [] 0 0

/-- `fit_documents_to_budget` (`context_manager.py:82-174`). -/
def fit_documents_to_budget (documents : List Doc) (query : String)
    (conversation_history : List String) (model_name : String)
    (system_prompt : String := "") : String × PackMeta :=
  let budget := get_context_budget model_name
  let reserved := reservedTokens query conversation_history system_prompt
  let r := fitResult documents query conversation_history model_name
    system_prompt
  let context := String.intercalate "\n\n" r.1
  (context,
   { total_docs := documents.length, included_docs := r.2.2.1,
     tokens_used := r.2.1 + reserved, tokens_available := budget,
     tokens_reserved := reserved,
     utilization := ((r.2.1 + reserved : ℚ) / budget) * 100 })

/-! ### Reciprocal Rank Fusion (`QdrantService._rrf_fuse`) -/

/-- A point returned by the vector store: an id and a payload mapping. -/
structure RPoint where
  pid : String
  payload : List (String × String)
deriving DecidableEq, Inhabited

/-- The per-point data stored in `point_data`. -/
structure PEntry where
  text : String := ""
  metadata : List (String × String) := []
deriving DecidableEq, Inhabited

def pointEntry (p : RPoint) : PEntry :=
  { text := (p.payload.lookup "text").getD "",
    metadata := p.payload.filter (fun kv => kv.1 ≠ "text") }

/-- `scores[pid] = scores.get(pid, 0.0) + d`: Python dict assignment keeps
the insertion position of an existing key and appends a new key. -/
def bumpScore : List (String × ℚ) → String → ℚ → List (String × ℚ)
  | [], pid, d => [(pid, d)]
  | (p, v) :: rest, pid, d =>
    if p = pid then (p, v + d) :: rest else (p, v) :: bumpScore rest pid d

/-- `if pid not in point_data: point_data[pid] = entry`. -/
def addIfAbsent : List (String × PEntry) → String → PEntry →
    List (String × PEntry)
  | [], pid, e => [(pid, e)]
  | (p, v) :: rest, pid, e =>
    if p = pid then (p, v) :: rest else (p, v) :: addIfAbsent rest pid e

/-- One `for rank, point in enumerate(points)` scoring pass. -/
def rrfPass (k : ℚ) : List RPoint → Nat →
    List (String × ℚ) × List (String × PEntry) →
    List (String × ℚ) × List (String × PEntry)
  | [], _, st => st
  | p :: rest, rank, (scores, pdata) =>
    rrfPass k rest (rank + 1)
      (bumpScore scores p.pid (1 / (k + (rank : ℚ) + 1)),
       addIfAbsent pdata p.pid (pointEntry p))

/-- Association-list lookup (Python dict indexing). -/
def alookup {β : Type} : List (String × β) → String → Option β
  | [], _ => none
  | (p, v) :: rest, pid => if p = pid then some v else alookup rest pid

/-- A fused result entry (`{"id", "text", "metadata", "score"}`). -/
structure FusedEntry where
  id : String
  text : String
  metadata : List (String × String)
  score : ℚ
deriving DecidableEq, Inhabited

/-- `_rrf_fuse` (`qdrant_client.py:179-213`).  `point_data[pid]` is total in
Python because every scored id was also stored; the `getD default` branch
is unreachable. -/
def rrf_fuse (k : ℚ) (dense_points text_points : List RPoint)
    (top_k : Nat) : List FusedEntry :=
  let st := rrfPass k text_points 0 (rrfPass k dense_points 0 ([], []))
  let sorted_ids := pySortDesc (fun pr => pr.2) st.1
  (sorted_ids.take top_k).map (fun pr =>
    let e := (alookup st.2 pr.1).getD default
    { id := pr.1, text := e.text, metadata := e.metadata, score := pr.2 })

/-- The fused score of a point id (0 when absent from both lists). -/
def rrf_score (k : ℚ) (dense_points text_points : List RPoint)
    (pid : String) : ℚ :=
  let st := rrfPass k text_points 0 (rrfPass k dense_points 0 ([], []))
  ((alookup st.1 pid).getD 0)

/-! ### Retrieve-stage merging, language boost and sort
(`make_retrieve_node`, `nodes.py:253-297`) -/

/-- `all_docs[doc_id] = doc` guarded by
`doc_id not in all_docs or doc["score"] > all_docs[doc_id]["score"]`. -/
def bumpDoc : List (String × Doc) → String → Doc → List (String × Doc)
  | [], did, doc => [(did, doc)]
  | (p, v) :: rest, did, doc =>
    if p = did then (if v.score < doc.score then (p, doc) else (p, v)) :: rest
    else (p, v) :: bumpDoc rest did doc

/-- Fold a document list into the dedup map. -/
def bumpAll (docs : List Doc) (init : List (String × Doc)) :
    List (String × Doc) :=
  docs.foldl (fun m doc => bumpDoc m doc.id doc) init

/-- The documents of the non-failing per-query results, in iteration
order. -/
def okDocs : List (Except String (List Doc)) → List Doc
  | [] => []
  | .error _ :: rest => okDocs rest
  | .ok docs :: rest => docs ++ okDocs rest

/-- Merge the per-query search outcomes, skipping failed queries
(`isinstance(result, Exception)`). -/
def mergeSearchResults (search_results : List (Except String (List Doc)))
    (init : List (String × Doc)) : List (String × Doc) :=
  search_results.foldl
    (fun acc res =>
      match res with
      | .error _ => acc
      | .ok docs => bumpAll docs acc)
    init

/-- Language-affinity boost (`score * 1.1`, `language_match` annotation). -/
def boostDocs (detected_language : String) (documents : List Doc) :
    List Doc :=
  if detected_language ≠ "" ∧ detected_language ≠ "unknown" then
    documents.map (fun doc =>
      if doc.metadata.language = detected_language then
        { doc with score := doc.score * (11 / 10), language_match := some true }
      else { doc with language_match := some false })
  else documents

/-- Post-processing of the retrieve stage: merge/deduplicate by point id
(higher score wins), optionally merge HyDE results with the same rule,
boost same-language scores, sort by score descending. -/
def retrieve_documents (search_results : List (Except String (List Doc)))
    (hyde_docs : Option (List Doc)) (detected_language : String) :
    List Doc :=
  let all_docs := mergeSearchResults search_results []
  let all_docs :=
    match hyde_docs with
    | some docs => bumpAll docs all_docs
    | none => all_docs
  let documents := all_docs.map (fun kv : String × Doc => kv.2)
  pySortDesc Doc.score (boostDocs detected_language documents)

/-! ### Turn state and workflow graph (`src/models/state.py`, `src/agent/graph.py`)

Strings with Python-falsy defaults (`""`, `[]`) model absent/`None` keys,
matching the `state.get(...) or ...` truthiness idioms of the nodes. -/

inductive Msg where
  | human (content : String)
  | ai (content : String)
deriving DecidableEq

def msgContent : Msg → String
  | .human c => c
  | .ai c => c

structure RuntimeCtx where
  language_preference : String := "auto"
deriving DecidableEq, Inhabited

/-- `AgentState` (TypedDict). -/
structure AgentState where
  messages : List Msg := []
  query : String := ""
  original_query : String := ""
  search_query : String := ""
  search_queries : List String := []
  inferred_filters : Option (List (String × String)) := none
  documents : List Doc := []
  generation : String := ""
  retries : Nat := 0
  filters : Option (List (String × String)) := none
  context_metadata : Option PackMeta := none
  runtime_context : Option RuntimeCtx := none
  query_language : Option String := none
  intent : Option String := none
deriving DecidableEq, Inhabited

/-- The JSON object parsed from the query-preparation LLM response.  The
LLM call, fenced-code-block stripping and `json.loads` are the external
boundary; `none` at the `Env` level models a parse failure. -/
structure PrepParsed where
  search_query : Option String := none
  search_queries : List String := []
  step_back_query : String := ""
  filters : Option (List (String × String)) := none
deriving DecidableEq, Inhabited

/-- External world of one turn: every service call a node awaits.  Each
field is the deterministic response of the corresponding collaborator. -/
structure Env where
  /-- `langdetect.detect`; `none` models `LangDetectException`. -/
  langdetect : String → Option String := fun _ => none
  /-- query-prepare LLM response, already JSON-parsed (`none` = failure). -/
  prep : Option PrepParsed := none
  /-- `embed_query` + `hybrid_search` for one query string. -/
  search : String → Except String (List Doc) := fun _ => .ok []
  /-- HyDE LLM paragraph + search; `none` models any exception. -/
  hyde : Option (List Doc) := none
  /-- reranker service `POST /rerank` results as `(index, score)` pairs. -/
  rerankResp : String → List String → List (Nat × ℚ) := fun _ _ => []
  /-- rewrite LLM response content. -/
  rewriteLLM : String → String := fun q => q
  /-- generation LLM + validators + output guardrails (final answer). -/
  genAnswer : String → List Doc → List Msg → String := fun _ _ _ => ""
  /-- `create_dynamic_system_prompt` (prompt assembly, not embedded). -/
  sysPrompt : String → List Doc → String := fun _ _ => ""
  /-- `get_surrounding_chunks` neighbor texts for `(document_id, chunk_index)`. -/
  neighbors : String → Int → List String := fun _ _ => []

/-- The knobs of `Settings` the graph consumes. -/
structure GraphSettings where
  rerank_top_k : Nat := 7
  enable_hyde : Bool := true
  model_name : String := "llama3.1"
deriving DecidableEq, Inhabited

/-- `make_intent_router_node`.  `classify_intent` is total (proved below),
so the `getD` default is never taken. -/
def intent_router_node (s : AgentState) : AgentState :=
  { s with intent := some ((classify_intent s.query).getD "hr_query") }

/-- `route_by_intent` (conditional edge). -/
def route_by_intent (s : AgentState) : String :=
  let intent := s.intent.getD "hr_query"
  if intent = "greeting" ∨ intent = "thanks" then "greeting_response"
  else "rewrite_for_retrieval"

/-- `make_greeting_response_node`: language-matched canned reply, no
service calls; clears `documents`. -/
def greeting_response_node (env : Env) (s : AgentState) : AgentState :=
  let intent := s.intent.getD "greeting"
  let lang := detect_language env.langdetect s.query
  let response :=
    if intent = "thanks" then
      (THANKS_RESPONSES.lookup lang).getD
        ((THANKS_RESPONSES.lookup "en").getD "")
    else
      (GREETING_RESPONSES.lookup lang).getD
        ((GREETING_RESPONSES.lookup "en").getD "")
  { s with generation := response,
           messages := s.messages ++ [.ai response],
           documents := [] }

/-- `{k: v for k, v in filters.items() if v}`, then falsy → `None`. -/
def cleanFilters : Option (List (String × String)) →
    Option (List (String × String))
  | none => none
  | some fs =>
    let fs' := fs.filter (fun kv => !kv.2.isEmpty)
    if fs'.isEmpty then none else some fs'

/-- `all_queries`: primary + up to 3 alternates + optional step-back
(`nodes.py:182-187`). -/
def prep_all_queries (query : String) (r : PrepParsed) : List String :=
  let search_query := r.search_query.getD query
  let alls := [search_query]
  let alls :=
    if !r.search_queries.isEmpty then alls ++ r.search_queries.take 3 else alls
  if !r.step_back_query.isEmpty then alls ++ [r.step_back_query] else alls

/-- `make_query_prepare_node`: one LLM call; on parse failure fall back to
the identity rewrite. -/
def query_prepare_node (env : Env) (s : AgentState) : AgentState :=
  match env.prep with
  | some r =>
    { s with original_query := s.query,
             search_query := r.search_query.getD s.query,
             search_queries := prep_all_queries s.query r,
             inferred_filters := cleanFilters r.filters }
  | none =>
    { s with original_query := s.query, search_query := s.query,
             search_queries := [s.query], inferred_filters := none }

/-- `state.get("original_query") or state["query"]`. -/
def effQuery (s : AgentState) : String :=
  if s.original_query.isEmpty then s.query else s.original_query

/-- `state.get("search_queries") or [state.get("search_query") or query]`. -/
def effective_search_queries (s : AgentState) : List String :=
  if !s.search_queries.isEmpty then s.search_queries
  else [if !s.search_query.isEmpty then s.search_query else effQuery s]

/-- Number of hybrid searches the retrieve node fans out over
(one `_embed_and_search` per entry of the query family). -/
def retrieve_fanout (s : AgentState) : Nat :=
  (effective_search_queries s).length

/-- `make_retrieve_node`.  `hyde_llm` mirrors the `llm` parameter: the graph
passes none (`make_retrieve_node(embedding, qdrant)`), so the HyDE block
is skipped regardless of `enable_hyde`. -/
def retrieve_node (env : Env) (settings : GraphSettings) (hyde_llm : Bool)
    (s : AgentState) : AgentState :=
  let query := effQuery s
  let search_queries := effective_search_queries s
  let language_pref := (s.runtime_context.getD {}).language_preference
  let detected_language :=
    if language_pref = "auto" then detect_language env.langdetect query
    else language_pref
  let search_results := search_queries.map env.search
  let hyde_docs :=
    if hyde_llm && settings.enable_hyde then env.hyde else none
  { s with
    documents := retrieve_documents search_results hyde_docs detected_language,
    query_language := some detected_language }

/-- `RerankResult` dataclass. -/
structure RerankResult where
  text : String
  score : ℚ
  index : Nat
  metadata : Meta
deriving DecidableEq, Inhabited

/-- `RerankerService.rerank`: map the service entries back onto the input
documents, sort by score descending, keep `top_k`.  An out-of-range index
from the service would raise in Python; `getD default` marks that
unreachable branch of the external contract. -/
def reranker_rerank (env : Env) (top_k : Nat) (query : String)
    (documents : List Doc) : List RerankResult :=
  let texts := documents.map Doc.text
  let entries := env.rerankResp query texts
  let scored := entries.map (fun e =>
    let d := (documents.get? e.1).getD default
    ({ text := d.text, score := e.2, index := e.1,
       metadata := d.metadata } : RerankResult))
  (pySortDesc RerankResult.score scored).take top_k

/-- `make_rerank_node`: keeps both scores; the rebuilt dicts carry no
`"id"` key (`Doc.id = ""`). -/
def rerank_node (env : Env) (settings : GraphSettings) (s : AgentState) :
    AgentState :=
  if s.documents.isEmpty then { s with documents := [] }
  else
    let documents := s.documents
    let results := reranker_rerank env settings.rerank_top_k s.query documents
    let reranked := results.map (fun r =>
      let original_score :=
        if r.index < documents.length then
          ((documents.get? r.index).getD default).score
        else 0
      ({ text := r.text, score := r.score, retrieval_score := original_score,
         combined_score := (original_score + r.score) / 2,
         metadata := r.metadata } : Doc))
    { s with documents := reranked }

/-- The grade node of the built graph (spec-modelled threshold grader). -/
def grade_documents_node (s : AgentState) : AgentState :=
  { s with documents := grade_documents s.documents }

/-- `should_retry` (`nodes.py:619-625`). -/
def should_retry (s : AgentState) : String :=
  if !s.documents.isEmpty then "generate"
  else if 3 ≤ s.retries then "generate"
  else "rewrite"

/-- `make_rewrite_query_node`: single-shot reformulation, resets the query
family, increments `retries`. -/
def rewrite_query_node (env : Env) (s : AgentState) : AgentState :=
  let query := if !s.search_query.isEmpty then s.search_query else s.query
  let rewritten := pyStrip (env.rewriteLLM query)
  { s with query := rewritten, search_query := rewritten,
           search_queries := [rewritten], retries := s.retries + 1 }

/-- Python `f"{x}"` of a possibly-`None` string value. -/
def pyShowOptStr : Option String → String
  | some s => s
  | none => "None"

def pyShowOptInt : Option Int → String
  | some n => toString n
  | none => "None"

/-- `make_expand_context_node` body: parent deduplication or neighbor
fetch. -/
def expand_context_docs (env : Env) (documents : List Doc) : List Doc :=
  (documents.foldl
    (fun (st : List String × List Doc) doc =>
      let (seen_parents, expanded) := st
      let meta := doc.metadata
      if truthyStr meta.parent_text then
        let parent_key := pyShowOptStr meta.document_id ++ ":" ++
          pyShowOptInt meta.parent_chunk_index
        if seen_parents.contains parent_key then (seen_parents, expanded)
        else (seen_parents ++ [parent_key], expanded ++ [doc])
      else
        match meta.document_id, meta.chunk_index with
        | some doc_id, some chunk_idx =>
          let neighbors := env.neighbors doc_id chunk_idx
          if !neighbors.isEmpty then
            (seen_parents,
             expanded ++ [{ doc with text := String.intercalate "\n" neighbors }])
          else (seen_parents, expanded ++ [doc])
        | _, _ => (seen_parents, expanded ++ [doc]))
    ([], [])).2

def expand_context_node (env : Env) (s : AgentState) : AgentState :=
  { s with documents := expand_context_docs env s.documents }

/-- `make_generate_node`: packs context, invokes the generator once (the
LLM answer, validation and output guardrails are the `genAnswer`
boundary), appends the AI message. -/
def generate_node (env : Env) (settings : GraphSettings) (s : AgentState) :
    AgentState :=
  let query := effQuery s
  let system_prompt := env.sysPrompt query s.documents
  let packed := fit_documents_to_budget s.documents query
    (s.messages.map msgContent) settings.model_name system_prompt
  let final_answer := env.genAnswer query s.documents s.messages
  { s with generation := final_answer,
           messages := s.messages ++ [.ai final_answer],
           context_metadata := some packed.2 }

/-- The graph's node names (`build_graph`); `done` is `END`. -/
inductive NodeName where
  | intent_router
  | greeting_response
  | query_prepare
  | retrieve
  | rerank
  | grade_documents
  | expand_context
  | generate
  | rewrite_query
  | done
deriving DecidableEq

/-- One workflow step: run the node at the current name, then follow the
(conditional) edge of `build_graph`. -/
def step (env : Env) (settings : GraphSettings) :
    NodeName → AgentState → NodeName × AgentState
  | .intent_router, s =>
    let s' := intent_router_node s
    (if route_by_intent s' = "greeting_response" then .greeting_response
     else .query_prepare, s')
  | .greeting_response, s => (.done, greeting_response_node env s)
  | .query_prepare, s => (.retrieve, query_prepare_node env s)
  | .retrieve, s => (.rerank, retrieve_node env settings false s)
  | .rerank, s => (.grade_documents, rerank_node env settings s)
  | .grade_documents, s =>
    let s' := grade_documents_node s
    (if should_retry s' = "generate" then .expand_context
     else .rewrite_query, s')
  | .expand_context, s => (.generate, expand_context_node env s)
  | .generate, s => (.done, generate_node env settings s)
  | .rewrite_query, s => (.retrieve, rewrite_query_node env s)
  | .done, s => (.done, s)

/-- The stream of `(node_name, state-after-node)` events emitted while the
graph runs (streaming mode), with fuel. -/
def runTrace (env : Env) (settings : GraphSettings) :
    Nat → NodeName × AgentState → List (NodeName × AgentState)
  | 0, _ => []
  | fuel + 1, (n, s) =>
    if n = .done then []
    else
      let st' := step env settings n s
      (n, st'.2) :: runTrace env settings fuel st'

/-! ### Guardrails (`src/agent/guardrails.py`)

The regex patterns of the source are embedded with small backtracking
matcher combinators in continuation style.  Every repetition in those
patterns is over a single character class, so greedy matching with
backtracking over run lengths reproduces the `re` semantics exactly.
Regex `\w` (Unicode) is modelled on the ASCII and Cyrillic alphabets this
system handles. -/

/-- Regex `\w`: ASCII alphanumerics, underscore, Cyrillic letters. -/
def isPyWord (c : Char) : Bool :=
  c.isAlphanum || c = '_' || decide (0x400 ≤ c.toNat ∧ c.toNat ≤ 0x4FF)

/-- A matcher continuation: previous character (for `\b`) and remaining
input; `some rem` on success. -/
abbrev Cont := Option Char → List Char → Option (List Char)

def kDone : Cont := fun _ l => some l

def eatChar (p : Char → Bool) (k : Cont) : Cont := fun _ l =>
  match l with
  | c :: rest => if p c then k (some c) rest else none
  | [] => none

def eatLit (w : String) (k : Cont) : Cont :=
  w.data.foldr (fun c acc => eatChar (fun x => x = c) acc) k

/-- `(...)?`: prefer the group present (regex option is greedy). -/
def eatOpt (m : Cont → Cont) (k : Cont) : Cont := fun prev l =>
  (m k prev l).orElse (fun _ => k prev l)

/-- `(w1|w2|...)`: leftmost alternative first. -/
def eatAltLits (ws : List String) (k : Cont) : Cont := fun prev l =>
  ws.foldr (fun w acc => ((eatLit w k) prev l).orElse (fun _ => acc)) none

def runLen (p : Char → Bool) (l : List Char) : Nat := (l.takeWhile p).length

def prevAt (prev : Option Char) (l : List Char) (j : Nat) : Option Char :=
  match (l.take j).getLast? with
  | some c => some c
  | none => prev

def tryLens (f : Nat → Option (List Char)) (lo : Nat) :
    Nat → Option (List Char)
  | 0 => f lo
  | n + 1 => (f (lo + n + 1)).orElse (fun _ => tryLens f lo n)

/-- Greedy `class{lo,}` / `class{lo,cap}`: longest run first, backtracking
down to `lo` repetitions. -/
def eatRun (p : Char → Bool) (lo : Nat) (cap : Option Nat) (k : Cont) :
    Cont := fun prev l =>
  let n := runLen p l
  let hi := match cap with
    | some c => min n c
    | none => n
  if hi < lo then none
  else tryLens (fun j => k (prevAt prev l j) (l.drop j)) lo (hi - lo)

def eatWs1 (k : Cont) : Cont := eatRun isWsChar 1 none k

def eatWs0 (k : Cont) : Cont := eatRun isWsChar 0 none k

/-- `class{n}` exactly. -/
def eatExact (p : Char → Bool) : Nat → Cont → Cont
  | 0, k => k
  | n + 1, k => eatChar p (eatExact p n k)

/-- `\b`: word-char status changes between the previous character and the
next one (string edges count as non-word). -/
def wordBoundary (prev : Option Char) (l : List Char) : Bool :=
  (match prev with
   | some c => isPyWord c
   | none => false) ≠
  (match l with
   | c :: _ => isPyWord c
   | [] => false)

def eatB (k : Cont) : Cont := fun prev l =>
  if wordBoundary prev l then k prev l else none

/-- `(?!word)`: negative lookahead for a literal. -/
def notLitAhead (w : String) (k : Cont) : Cont := fun prev l =>
  if l.take w.data.length == w.data then none else k prev l

/-- `re.search`: try the pattern at every position. -/
def reSearch (m : Cont) : Option Char → List Char → Bool
  | prev, [] => (m prev []).isSome
  | prev, c :: rest => (m prev (c :: rest)).isSome || reSearch m (some c) rest

def reSearchStr (m : Cont) (s : String) : Bool := reSearch m none s.data

/-- The `injection_patterns` list of `detect_prompt_injection`, in source
order; applied to the lowered text. -/
def patterns_injection : List Cont :=
  [eatLit "ignore" (eatWs1 (eatOpt (fun k => eatLit "all" (eatWs1 k))
     (eatAltLits ["previous", "above", "prior"] (eatWs1
       (eatAltLits ["instructions", "prompts", "commands"] kDone))))),
   eatLit "disregard" (eatWs1 (eatOpt (fun k => eatLit "all" (eatWs1 k))
     (eatAltLits ["previous", "above", "prior"] kDone))),
   eatLit "forget" (eatWs1 (eatOpt (fun k => eatLit "all" (eatWs1 k))
     (eatAltLits ["previous", "above", "prior"] kDone))),
   eatLit "new" (eatWs1 (eatLit "instruction"
     (eatOpt (fun k => eatLit "s" k) (eatLit ":" kDone)))),
   eatLit "system" (eatWs0 (eatLit ":" kDone)),
   eatLit "assistant" (eatWs0 (eatLit ":" kDone)),
   eatLit "###" (eatWs0 (eatLit "instruction" kDone)),
   eatLit "you" (eatWs1 (eatLit "are" (eatWs1 (eatLit "now" kDone)))),
   eatLit "act" (eatWs1 (eatLit "as" (eatWs1
     (eatOpt (fun k => eatLit "a" (eatWs1 k))
       (notLitAhead "assistant" kDone))))),
   eatLit "pretend" (eatWs1 (eatLit "to" (eatWs1 (eatLit "be" kDone)))),
   eatLit "roleplay" (eatWs1 (eatLit "as" kDone)),
   eatLit "jailbreak" kDone,
   eatLit "dan" (eatWs1 (eatLit "mode" kDone)),
   eatLit "developer" (eatWs1 (eatLit "mode" kDone)),
   eatLit "what" (eatWs1 (eatAltLits ["are", "is"] (eatWs1 (eatLit "your"
     (eatWs1 (eatOpt (fun k => eatLit "system" (eatWs1 k))
       (eatAltLits ["prompt", "instructions"] kDone))))))),
   eatLit "show" (eatWs1 (eatLit "me" (eatWs1 (eatLit "your"
     (eatWs1 (eatOpt (fun k => eatLit "system" (eatWs1 k))
       (eatAltLits ["prompt", "instructions"] kDone))))))),
   eatLit "repeat" (eatWs1 (eatOpt (fun k => eatLit "your" (eatWs1 k))
     (eatOpt (fun k => eatLit "system" (eatWs1 k))
       (eatAltLits ["prompt", "instructions"] kDone))))]

def injection_pattern_hit (text_lower : String) : Bool :=
  patterns_injection.any (fun m => reSearchStr m text_lower)

/-- The `[^\w\s.,!?'\"-]` class. -/
def isSpecialChar (c : Char) : Bool :=
  !(isPyWord c || isWsChar c ||
    ['.', ',', '!', '?', '\x27', '"', '-'].contains c)

/-- `special_char_ratio > 0.4`, cross-multiplied exactly:
`count / max(len, 1) > 2/5`. -/
def special_char_ratio_high (text : String) : Bool :=
  let cnt := (text.data.filter isSpecialChar).length
  decide (2 * max text.length 1 < 5 * cnt)

/-- `detect_prompt_injection` (`guardrails.py:62-109`). -/
def detect_prompt_injection (text : String) : Bool :=
  injection_pattern_hit (pyLower text) || special_char_ratio_high text

/-- `sql_patterns`, applied to the lowered text. -/
def patterns_sql : List Cont :=
  [eatLit ";" (eatWs0 (eatLit "drop" (eatWs1 (eatLit "table" kDone)))),
   eatLit ";" (eatWs0 (eatLit "delete" (eatWs1 (eatLit "from" kDone)))),
   eatLit "union" (eatWs1 (eatLit "select" kDone)),
   eatLit "1" (eatWs0 (eatLit "=" (eatWs0 (eatLit "1" kDone)))),
   eatLit "\x27" (eatWs0 (eatLit "or" (eatWs0 (eatLit "\x271\x27"
     (eatWs0 (eatLit "=" (eatWs0 (eatLit "\x271" kDone))))))))]

/-- `command_patterns` without the two `.*` ones, applied to the raw
text. -/
def patterns_cmd : List Cont :=
  [eatLit ";" (eatWs0 (eatLit "rm" (eatWs1 (eatLit "-rf" kDone)))),
   eatLit "&&" (eatWs0 (eatLit "rm" (eatWs1 kDone))),
   eatLit "|" (eatWs0 (eatLit "bash" kDone))]

def backtickChar : Char := Char.ofNat 96

/-- The backtick command-execution pattern: two backticks on one line
(`.` does not cross a newline). -/
def backtick_span_hit : List Char → Bool
  | [] => false
  | c :: rest =>
    (c = backtickChar &&
      (rest.takeWhile (fun x => x ≠ '\n')).contains backtickChar) ||
    backtick_span_hit rest

/-- The `\$\(.*\)` command-substitution pattern. -/
def dollar_paren_hit : List Char → Bool
  | [] => false
  | c :: rest =>
    (c = '$' &&
      (match rest with
       | c2 :: rest2 =>
         c2 = '(' && (rest2.takeWhile (fun x => x ≠ '\n')).contains ')'
       | [] => false)) ||
    dollar_paren_hit rest

/-- `detect_malicious_patterns` (`guardrails.py:168-206`). -/
def detect_malicious_patterns (text : String) : Bool :=
  patterns_sql.any (fun m => reSearchStr m (pyLower text)) ||
  patterns_cmd.any (fun m => reSearchStr m text) ||
  backtick_span_hit text.data || dollar_paren_hit text.data

/-! #### PII masking (`mask_pii`) -/

def isLocalCls (c : Char) : Bool :=
  c.isAlphanum || ['.', '_', '%', '+', '-'].contains c

def isDomCls (c : Char) : Bool := c.isAlphanum || c = '.' || c = '-'

/-- The `[A-Z|a-z]{2,}` class (the source class literally contains `|`). -/
def isTldCls (c : Char) : Bool := c.isAlpha || c = '|'

def matchEmail : Cont :=
  eatB (eatRun isLocalCls 1 none (eatChar (fun c => c = '@')
    (eatRun isDomCls 1 none (eatChar (fun c => c = '.')
      (eatRun isTldCls 2 none (eatB kDone))))))

def isDashDot (c : Char) : Bool := c = '-' || c = '.'

def matchPhone1 : Cont :=
  eatB (eatExact Char.isDigit 3 (eatOpt (eatChar isDashDot)
    (eatExact Char.isDigit 3 (eatOpt (eatChar isDashDot)
      (eatExact Char.isDigit 4 (eatB kDone))))))

def matchPhone2 : Cont :=
  eatB (eatChar (fun c => c = '(') (eatExact Char.isDigit 3
    (eatChar (fun c => c = ')') (eatOpt (eatChar isWsChar)
      (eatExact Char.isDigit 3 (eatOpt (eatChar isDashDot)
        (eatExact Char.isDigit 4 (eatB kDone))))))))

def matchPhone3 : Cont :=
  eatB (eatChar (fun c => c = '+') (eatRun Char.isDigit 1 (some 3)
    (eatOpt (eatChar isWsChar) (eatRun Char.isDigit 9 none (eatB kDone)))))

def isDashWs (c : Char) : Bool := c = '-' || isWsChar c

def matchCC : Cont :=
  eatB (eatExact Char.isDigit 4 (eatOpt (eatChar isDashWs)
    (eatExact Char.isDigit 4 (eatOpt (eatChar isDashWs)
      (eatExact Char.isDigit 4 (eatOpt (eatChar isDashWs)
        (eatExact Char.isDigit 4 (eatB kDone))))))))

def matchSSN : Cont :=
  eatB (eatExact Char.isDigit 3 (eatChar (fun c => c = '-')
    (eatExact Char.isDigit 2 (eatChar (fun c => c = '-')
      (eatExact Char.isDigit 4 (eatB kDone))))))

def matchIP : Cont :=
  eatB (eatRun Char.isDigit 1 (some 3) (eatChar (fun c => c = '.')
    (eatRun Char.isDigit 1 (some 3) (eatChar (fun c => c = '.')
      (eatRun Char.isDigit 1 (some 3) (eatChar (fun c => c = '.')
        (eatRun Char.isDigit 1 (some 3) (eatB kDone))))))))

/-- `re.sub`: replace non-overlapping matches left to right.  Fuel is the
input length; every pattern used here consumes at least one character. -/
def subScan (m : Cont) (repl : List Char) :
    Nat → Option Char → List Char → Bool × List Char
  | 0, _, l => (false, l)
  | _ + 1, _, [] => (false, [])
  | fuel + 1, prev, c :: rest =>
    match m prev (c :: rest) with
    | some rem =>
      if rem.length < rest.length + 1 then
        let taken := (c :: rest).take (rest.length + 1 - rem.length)
        let r := subScan m repl fuel taken.getLast? rem
        (true, repl ++ r.2)
      else
        let r := subScan m repl fuel (some c) rest
        (r.1, c :: r.2)
    | none =>
      let r := subScan m repl fuel (some c) rest
      (r.1, c :: r.2)

/-- `(bool(re.search(p, s)), re.sub(p, repl, s))`. -/
def reSub (m : Cont) (repl : String) (s : String) : Bool × String :=
  let r := subScan m repl.data (s.data.length + 1) none s.data
  (r.1, ⟨r.2⟩)

/-- `re.findall` (patterns without groups return the matched substrings). -/
def findScan (m : Cont) : Nat → Option Char → List Char → List (List Char)
  | 0, _, _ => []
  | _ + 1, _, [] => []
  | fuel + 1, prev, c :: rest =>
    match m prev (c :: rest) with
    | some rem =>
      if rem.length < rest.length + 1 then
        let taken := (c :: rest).take (rest.length + 1 - rem.length)
        taken :: findScan m fuel taken.getLast? rem
      else findScan m fuel (some c) rest
    | none => findScan m fuel (some c) rest

def reFindAll (m : Cont) (s : String) : List String :=
  (findScan m (s.data.length + 1) none s.data).map (fun l => ⟨l⟩)

/-- Python `str.replace` (all non-overlapping occurrences). -/
def strReplaceL (needle repl : List Char) : Nat → List Char → List Char
  | 0, l => l
  | _ + 1, [] => []
  | fuel + 1, c :: rest =>
    if !needle.isEmpty && (c :: rest).take needle.length == needle then
      repl ++ strReplaceL needle repl fuel ((c :: rest).drop needle.length)
    else c :: strReplaceL needle repl fuel rest

def pyReplace (s needle repl : String) : String :=
  ⟨strReplaceL needle.data repl.data (s.data.length + 1) s.data⟩

def strToNat (l : List Char) : Nat :=
  l.foldl (fun a c => a * 10 + (c.toNat - 48)) 0

def phone_matchers : List Cont := [matchPhone1, matchPhone2, matchPhone3]

/-- `mask_pii` (`guardrails.py:112-165`): emails, phone variants, credit
cards, SSNs, then IPv4 candidates validated octet-by-octet and replaced
with `str.replace`. -/
def mask_pii (text : String) : Bool × String :=
  let r1 := reSub matchEmail "[EMAIL]" text
  let rp := phone_matchers.foldl
    (fun (st : Bool × String) m =>
      let r := reSub m "[PHONE]" st.2
      (st.1 || r.1, r.2)) r1
  let r3 := reSub matchCC "[CREDIT_CARD]" rp.2
  let r4 := reSub matchSSN "[SSN]" r3.2
  let ips := reFindAll matchIP r4.2
  ips.foldl
    (fun (st : Bool × String) ip =>
      let parts := (ip.split (fun c => c = '.')).map (fun p => strToNat p.data)
      if parts.all (fun p => p ≤ 255) then
        (true, pyReplace st.2 ip "[IP_ADDRESS]")
      else st)
    (rp.1 || r3.1 || r4.1, r4.2)

/-- The successful result dict of `validate_input`. -/
structure InputValidation where
  original_query : String
  masked_query : String
  warnings : List String
  passed : Bool
deriving DecidableEq

/-- `validate_input` (`guardrails.py:13-59`); `Except.error` models a
raised `GuardrailViolation`. -/
def validate_input (query : String) (max_length : Nat := 2000) :
    Except String InputValidation :=
  if query.isEmpty || (pyStrip query).isEmpty then
    .error "Query cannot be empty"
  else if max_length < query.length then
    .error "Query too long"
  else if detect_prompt_injection query then
    .error "Potential prompt injection detected. Please rephrase your question."
  else
    let pii := mask_pii query
    let warnings := if pii.1 then ["PII detected and masked in query"] else []
    if detect_malicious_patterns query then
      .error
        "Query contains potentially harmful content. Please rephrase your question."
    else
      .ok { original_query := query, masked_query := pii.2,
            warnings := warnings, passed := true }

/-! ## Theorems -/

/-! ### The stable descending sort -/

theorem insertDescBy_perm {α : Type} (key : α → ℚ) (x : α) (l : List α) :
    (insertDescBy key x l).Perm (x :: l) := by
  induction l with
  | nil => simp [insertDescBy]
  | cons y ys ih =>
    unfold insertDescBy
    split
    · exact (ih.cons y).trans (List.Perm.swap x y ys)
    · exact List.Perm.refl _

theorem pySortDesc_perm {α : Type} (key : α → ℚ) (l : List α) :
    (pySortDesc key l).Perm l := by
  induction l with
  | nil => simp [pySortDesc]
  | cons x xs ih =>
    exact (insertDescBy_perm key x (pySortDesc key xs)).trans (ih.cons x)

theorem insertDescBy_pairwise {α : Type} (key : α → ℚ) (x : α) (l : List α)
    (h : List.Pairwise (fun a b => key b ≤ key a) l) :
    List.Pairwise (fun a b => key b ≤ key a) (insertDescBy key x l) := by
  induction l with
  | nil => simp [insertDescBy]
  | cons y ys ih =>
    rcases List.pairwise_cons.mp h with ⟨hy, hys⟩
    unfold insertDescBy
    split
    · rename_i hlt
      refine List.pairwise_cons.mpr ⟨?_, ih hys⟩
      intro z hz
      rcases List.mem_cons.mp ((insertDescBy_perm key x ys).mem_iff.mp hz)
        with rfl | hz'
      · exact le_of_lt hlt
      · exact hy z hz' 
    · rename_i hge
      refine List.pairwise_cons.mpr ⟨?_, h⟩
      intro z hz
      rcases List.mem_cons.mp hz with rfl | hz2
      · exact le_of_not_lt hge
      · exact le_trans (hy z hz2) (le_of_not_lt hge)

theorem pySortDesc_pairwise {α : Type} (key : α → ℚ) (l : List α) :
    List.Pairwise (fun a b => key b ≤ key a) (pySortDesc key l) := by
  induction l with
  | nil => simp [pySortDesc]
  | cons x xs ih => exact insertDescBy_pairwise key x (pySortDesc key xs) ih

/-! ### C1: the grade stage -/

/-- C1.  The grade_documents stage is a score-threshold filter on the
reranker score: a non-empty list keeps exactly the documents with
`score ≥ 0.15` when at least one document reaches the threshold; when no
document reaches 0.15 it keeps the top 3 if at least 3 documents exist,
else the top 1; empty input gives empty output. -/
theorem grade_documents_spec (documents : List Doc) :
    (documents = [] → grade_documents documents = []) ∧
    (documents ≠ [] → (∃ d ∈ documents, (15 : ℚ) / 100 ≤ d.score) →
      grade_documents documents =
        documents.filter (fun d => (15 : ℚ) / 100 ≤ d.score)) ∧
    (documents ≠ [] → (∀ d ∈ documents, d.score < (15 : ℚ) / 100) →
      grade_documents documents =
        if 3 ≤ documents.length then documents.take 3
        else documents.take 1) := by
  refine ⟨fun h => by simp [h, grade_documents], fun hne hex => ?_, fun hne hall => ?_⟩
  · have hk : documents.filter (fun d => (15 : ℚ) / 100 ≤ d.score) ≠ [] := by
      rcases hex with ⟨d, hd, hscore⟩
      intro hnil
      have := List.filter_eq_nil_iff.mp hnil d hd
      simp [hscore] at this
    unfold grade_documents
    rw [if_neg (by simpa [List.isEmpty_iff] using hne),
      if_pos (by simpa [List.isEmpty_iff] using hk)]
  · have hk : documents.filter (fun d => (15 : ℚ) / 100 ≤ d.score) = [] := by
      refine List.filter_eq_nil_iff.mpr fun d hd => ?_
      simpa using not_le.mpr (hall d hd)
    unfold grade_documents
    rw [if_neg (by simpa [List.isEmpty_iff] using hne)]
    simp only [hk]
    rfl

/-- Witness for C1: two documents below the threshold keep only the top 1. -/
theorem grade_documents_spec_witness :
    (grade_documents
      [{ id := "a", score := 1 / 10 }, { id := "b", score := 1 / 20 }]).map
        Doc.id = ["a"] := by
  have h := (grade_documents_spec
    [{ id := "a", score := 1 / 10 }, { id := "b", score := 1 / 20 }]).2.2
    (by simp)
    (by
      intro d hd
      simp only [List.mem_cons, List.not_mem_nil, or_false] at hd
      rcases hd with rfl | rfl <;> norm_num)
  rw [h]
  norm_num

/-! ### C3: retrieval fan-out -/

theorem prep_all_queries_ne_nil (query : String) (r : PrepParsed) :
    prep_all_queries query r ≠ [] := by
  unfold prep_all_queries
  split <;> split <;> simp

theorem prep_all_queries_length_le (query : String) (r : PrepParsed) :
    (prep_all_queries query r).length ≤ 5 := by
  unfold prep_all_queries
  split <;> split <;> simp [List.length_take]

/-- Amended C3.  One hybrid search is issued per member of the query
family; the family built by query_prepare is the primary plus at most 3
alternates plus an optional step-back query, so a retrieve pass right
after query_prepare fans out over at most 5 hybrid searches (not 3; no
cap is applied before fan-out), and a pass after a rewrite fans out over
exactly 1. -/
theorem retrieve_fanout_bound (env : Env) (s : AgentState) :
    retrieve_fanout (query_prepare_node env s) ≤ 5 ∧
    retrieve_fanout (rewrite_query_node env s) = 1 ∧
    (∀ q r, (prep_all_queries q r).length ≤ 5) := by
  refine ⟨?_, ?_, fun q r => prep_all_queries_length_le q r⟩
  · cases hp : env.prep with
    | none =>
      simp [query_prepare_node, hp, retrieve_fanout, effective_search_queries]
    | some r =>
      have hne := prep_all_queries_ne_nil s.query r
      have hle := prep_all_queries_length_le s.query r
      simp [query_prepare_node, hp, retrieve_fanout, effective_search_queries,
        List.isEmpty_iff, hne, hle]
  · simp [rewrite_query_node, retrieve_fanout, effective_search_queries]

/-- Counterexample to C3 as stated: a parsed preparation result with three
alternates and a step-back query makes the retrieve node issue 5 hybrid
searches. -/
theorem retrieve_fanout_claim_counterexample :
    retrieve_fanout (query_prepare_node
      { prep := some { search_query := some "a",
                       search_queries := ["b", "c", "d"],
                       step_back_query := "e" } }
      { query := "q" }) = 5 ∧ ¬(5 ≤ 3) := by decide

/-! ### C4: the context packer budget -/

theorem fitLoop_inv (tok : String → Nat) (avail : Nat) :
    ∀ (docs : List Doc) (parts : List String) (used included : Nat),
      used ≤ avail →
      ((fitLoop tok avail docs parts used included).2.2.2 = false →
        (fitLoop tok avail docs parts used included).2.1 ≤ avail) ∧
      ((fitLoop tok avail docs parts used included).2.2.2 = true →
        (fitLoop tok avail docs parts used included).2.2.1 = 1) := by
  intro docs
  induction docs with
  | nil => intro parts used included h; exact ⟨fun _ => h, by simp [fitLoop]⟩
  | cons doc rest ih =>
    intro parts used included h
    unfold fitLoop
    dsimp only
    split
    · exact ih _ _ _ (by assumption)
    · split
      · exact ⟨by simp, by simp⟩
      · exact ⟨fun _ => h, by simp⟩

/-- Amended C4.  The code floors the document budget at 1000 tokens
(`available_for_docs = max(budget - reserved, 1000)`), so the packed
output satisfies: the token total (included formatted documents plus the
reserved tokens) is at most `max(budget, reserved + 1000)` — not always
`budget` — OR exactly one document is included and that document was
truncated. -/
theorem fit_documents_budget_amended (documents : List Doc) (query : String)
    (history : List String) (model_name system_prompt : String) :
    (fit_documents_to_budget documents query history model_name
        system_prompt).2.tokens_used ≤
      max (fit_documents_to_budget documents query history model_name
        system_prompt).2.tokens_available
        ((fit_documents_to_budget documents query history model_name
          system_prompt).2.tokens_reserved + 1000) ∨
    ((fit_documents_to_budget documents query history model_name
        system_prompt).2.included_docs = 1 ∧
      (fitResult documents query history model_name system_prompt).2.2.2 =
        true) := by
  have hinv := fitLoop_inv token_counter
    (availableForDocs model_name
      (reservedTokens query history system_prompt))
    (pySortDesc Doc.score documents) [] 0 0 (Nat.zero_le _)
  by_cases ht :
      (fitResult documents query history model_name system_prompt).2.2.2 = true
  · right
    refine ⟨?_, ht⟩
    have := hinv.2 ht
    simpa [fit_documents_to_budget] using this
  · left
    have hused := hinv.1 (by simpa using ht)
    have harith :
        availableForDocs model_name
            (reservedTokens query history system_prompt) +
          reservedTokens query history system_prompt =
        max (get_context_budget model_name)
          (reservedTokens query history system_prompt + 1000) := by
      unfold availableForDocs
      omega
    have : (fitResult documents query history model_name system_prompt).2.1 +
        reservedTokens query history system_prompt ≤
        max (get_context_budget model_name)
          (reservedTokens query history system_prompt + 1000) := by
      rw [← harith]
      exact Nat.add_le_add_right hused _
    simpa [fit_documents_to_budget] using this

/-- The packing telemetry, spelled out (definitional). -/
theorem fit_documents_to_budget_metadata (documents : List Doc)
    (query : String) (history : List String)
    (model_name system_prompt : String) :
    (fit_documents_to_budget documents query history model_name
      system_prompt).2 =
    { total_docs := documents.length,
      included_docs :=
        (fitResult documents query history model_name system_prompt).2.2.1,
      tokens_used :=
        (fitResult documents query history model_name system_prompt).2.1 +
          reservedTokens query history system_prompt,
      tokens_available := get_context_budget model_name,
      tokens_reserved := reservedTokens query history system_prompt,
      utilization :=
        (((fitResult documents query history model_name
            system_prompt).2.1 +
          reservedTokens query history system_prompt : ℚ) /
            get_context_budget model_name) * 100 } := rfl

theorem reservedTokens_replicate :
    reservedTokens "q" (List.replicate 3500 "") "" = 4201 := by
  have h1 : token_counter "" = 1 := rfl
  have hmap : (List.replicate 3500 "").map token_counter =
      List.replicate 3500 1 := by
    rw [List.map_replicate, h1]
  unfold reservedTokens
  rw [hmap, List.sum_replicate, smul_eq_mul]
  decide

/-- Counterexample to C4 as stated: with an unknown model (budget 4000) and
3500 history messages, the reserved tokens alone exceed the budget, the
1000-token floor still admits both documents untruncated, and the packed
total 4205 exceeds the budget 4000 while `included_docs = 2` with neither
document truncated. -/
theorem fit_budget_claim_counterexample :
    (fit_documents_to_budget
      [{ id := "a", text := "aaaa", score := 1 },
       { id := "b", text := "bbbb", score := 0 }]
      "q" (List.replicate 3500 "") "m" "").2.tokens_used = 4205 ∧
    (fit_documents_to_budget
      [{ id := "a", text := "aaaa", score := 1 },
       { id := "b", text := "bbbb", score := 0 }]
      "q" (List.replicate 3500 "") "m" "").2.tokens_available = 4000 ∧
    ¬((4205 : Nat) ≤ 4000) ∧
    (fit_documents_to_budget
      [{ id := "a", text := "aaaa", score := 1 },
       { id := "b", text := "bbbb", score := 0 }]
      "q" (List.replicate 3500 "") "m" "").2.included_docs = 2 ∧
    (fitResult
      [{ id := "a", text := "aaaa", score := 1 },
       { id := "b", text := "bbbb", score := 0 }]
      "q" (List.replicate 3500 "") "m" "").2.2.2 = false := by
  have hb : get_context_budget "m" = 4000 := by decide
  have hav : availableForDocs "m" 4201 = 1000 := by
    simp [availableForDocs, hb]
  have hfit : fitResult
      [{ id := "a", text := "aaaa", score := 1 },
       { id := "b", text := "bbbb", score := 0 }]
      "q" (List.replicate 3500 "") "m" "" =
      fitLoop token_counter
        (availableForDocs "m" (reservedTokens "q" (List.replicate 3500 "") ""))
        (pySortDesc Doc.score
          [{ id := "a", text := "aaaa", score := 1 },
           { id := "b", text := "bbbb", score := 0 }]) [] 0 0 := rfl
  rw [reservedTokens_replicate, hav] at hfit
  refine ⟨?_, ?_, by decide, ?_, ?_⟩
  · rw [fit_documents_to_budget_metadata]
    dsimp only
    rw [hfit, reservedTokens_replicate]
    decide
  · rw [fit_documents_to_budget_metadata]
    dsimp only
    exact hb
  · rw [fit_documents_to_budget_metadata]
    dsimp only
    rw [hfit]
    decide
  · rw [hfit]
    decide

/-! ### Intent-classifier totality (C10) and the short-message branch (C8) -/

theorem lookup_mem_pairs {l : List (Char × Char)} {a b : Char}
    (h : List.lookup a l = some b) : (a, b) ∈ l := by
  induction l with
  | nil => simp [List.lookup] at h
  | cons p rest ih =>
    cases p with
    | mk k v =>
      simp only [List.lookup] at h
      cases hbk : (a == k) with
      | false =>
        simp only [hbk] at h
        exact List.mem_cons_of_mem _ (ih h)
      | true =>
        simp only [hbk, Option.some.injEq] at h
        subst h
        have hak : a = k := eq_of_beq hbk
        subst hak
        exact List.mem_cons_self _ _

theorem toLowerPy_ws (c : Char) : isWsChar (toLowerPy c) = isWsChar c := by
  unfold toLowerPy
  cases h : List.lookup c lowerTable with
  | none => rfl
  | some v =>
    have hm : (c, v) ∈ lowerTable := lookup_mem_pairs h
    have hfin : ∀ p ∈ lowerTable,
        isWsChar p.1 = false ∧ isWsChar p.2 = false := by decide
    have hp := hfin _ hm
    simp [hp.1, hp.2]

theorem dropWhile_head_false {p : Char → Bool} {l t : List Char} {c : Char}
    (h : l.dropWhile p = c :: t) : p c = false := by
  induction l with
  | nil => simp [List.dropWhile] at h
  | cons a l' ih =>
    rw [List.dropWhile_cons] at h
    split at h
    · exact ih h
    · rename_i hpa
      cases h
      simpa using hpa

theorem dropTrailing_append (p : Char → Bool) (l : List Char) :
    ∃ t2, dropTrailing p l ++ t2 = l := by
  refine ⟨(l.reverse.takeWhile p).reverse, ?_⟩
  unfold dropTrailing
  calc (l.reverse.dropWhile p).reverse ++ (l.reverse.takeWhile p).reverse
      = (l.reverse.takeWhile p ++ l.reverse.dropWhile p).reverse := by
        rw [List.reverse_append]
    _ = l.reverse.reverse := by rw [List.takeWhile_append_dropWhile]
    _ = l := l.reverse_reverse

theorem stripL_head_false {l t : List Char} {c : Char}
    (h : stripL l = c :: t) : isWsChar c = false := by
  obtain ⟨t2, h2⟩ := dropTrailing_append isWsChar (l.dropWhile isWsChar)
  rw [show stripL l = dropTrailing isWsChar (l.dropWhile isWsChar) from rfl]
    at h
  rw [h] at h2
  exact dropWhile_head_false (l := l) h2.symm

theorem normalized_head_false {l t : List Char} {c : Char}
    (h : rstripPunct (lowerL (stripL l)) = c :: t) : isWsChar c = false := by
  obtain ⟨t2, h2⟩ :=
    dropTrailing_append (fun c => trailingPunct.contains c) (lowerL (stripL l))
  rw [show rstripPunct (lowerL (stripL l)) =
      dropTrailing (fun c => trailingPunct.contains c) (lowerL (stripL l))
    from rfl] at h
  rw [h] at h2
  have hmap : lowerL (stripL l) = c :: (t ++ t2) := by
    rw [← h2]; simp
  cases hsl : stripL l with
  | nil => rw [hsl] at hmap; simp [lowerL] at hmap
  | cons c0 rest0 =>
    rw [hsl] at hmap
    simp only [lowerL, List.map_cons, List.cons.injEq] at hmap
    have h0 : isWsChar c0 = false := stripL_head_false hsl
    rw [← hmap.1, toLowerPy_ws]
    exact h0

theorem wordsAux_ne_nil :
    ∀ (l acc : List Char),
      ((∃ c ∈ l, isWsChar c = false) ∨ acc ≠ []) → wordsAux l acc ≠ [] := by
  intro l
  induction l with
  | nil =>
    intro acc h
    rcases h with ⟨c, hc, _⟩ | hacc
    · exact absurd hc (List.not_mem_nil c)
    · simp [wordsAux, List.isEmpty_iff, hacc]
  | cons c rest ih =>
    intro acc h
    unfold wordsAux
    by_cases hw : isWsChar c
    · rw [if_pos hw]
      by_cases hacc : acc.isEmpty
      · rw [if_pos hacc]
        refine ih [] (Or.inl ?_)
        rcases h with ⟨c', hc', hcw⟩ | hne
        · rcases List.mem_cons.mp hc' with rfl | hmem
          · exact absurd hw (by simp [hcw])
          · exact ⟨c', hmem, hcw⟩
        · exact absurd (List.isEmpty_iff.mp hacc) hne
      · rw [if_neg hacc]
        simp
    · rw [if_neg hw]
      exact ih (c :: acc) (Or.inr (by simp))

theorem pySplitWs_normalized_ne_nil (text : String)
    (h : (normalizedQuery text).data ≠ []) :
    pySplitWs (normalizedQuery text) ≠ [] := by
  cases hd : (normalizedQuery text).data with
  | nil => exact absurd hd h
  | cons c t =>
    have hdata : rstripPunct (lowerL (stripL text.data)) = c :: t := hd
    have hw : isWsChar c = false := normalized_head_false hdata
    have : pySplitWs (normalizedQuery text) =
        wordsAux (c :: t) [] := by
      unfold pySplitWs
      rw [hd]
    rw [this]
    exact wordsAux_ne_nil (c :: t) []
      (Or.inl ⟨c, List.mem_cons_self _ _, hw⟩)

/-- C10.  The intent classifier is total: for every input it returns one of
`greeting`, `thanks`, `hr_query` (never `none`; the `words[0]` access of
the short-message branch is always in bounds, because the normalized text
is non-empty there and starts with a non-whitespace character). -/
theorem classify_intent_total (text : String) :
    ∃ r, classify_intent text = some r ∧
      (r = "greeting" ∨ r = "thanks" ∨ r = "hr_query") := by
  unfold classify_intent
  by_cases h1 : emojiOnly text = true
  · simp only [h1, if_true]
    exact ⟨"greeting", rfl, Or.inl rfl⟩
  · rw [Bool.not_eq_true] at h1
    simp only [h1, Bool.false_eq_true, if_false]
    by_cases h2 : (normalizedQuery text).data.isEmpty = true
    · simp only [h2, if_true]
      exact ⟨"greeting", rfl, Or.inl rfl⟩
    · rw [Bool.not_eq_true] at h2
      simp only [h2, Bool.false_eq_true, if_false]
      by_cases h3 : GREETING_PATTERNS.contains (normalizedQuery text) = true
      · simp only [h3, if_true]
        exact ⟨"greeting", rfl, Or.inl rfl⟩
      · rw [Bool.not_eq_true] at h3
        simp only [h3, Bool.false_eq_true, if_false]
        by_cases h4 : THANKS_PATTERNS.contains (normalizedQuery text) = true
        · simp only [h4, if_true]
          exact ⟨"thanks", rfl, Or.inr (Or.inl rfl)⟩
        · rw [Bool.not_eq_true] at h4
          simp only [h4, Bool.false_eq_true, if_false]
          cases hw : pySplitWs (normalizedQuery text) with
          | nil =>
            exact absurd hw (pySplitWs_normalized_ne_nil text
              (by simpa [List.isEmpty_iff] using h2))
          | cons first_word rest =>
            dsimp only
            split_ifs <;>
              first
                | exact ⟨"greeting", rfl, Or.inl rfl⟩
                | exact ⟨"thanks", rfl, Or.inr (Or.inl rfl)⟩
                | exact ⟨"hr_query", rfl, Or.inr (Or.inr rfl)⟩

/-- Amended C8.  In the short-message branch (≤3 words, not emoji-only,
non-empty, no exact pattern match): a greeting-starting message is
classified `greeting` when it has no comma and no `?` OR has at most 2
words; a 3-word greeting-starting message containing a comma or `?` falls
through to the thanks check (`thanks` if it also starts with a thanks
token, else `hr_query`); a thanks-starting message (not caught by the
greeting rule) is classified `thanks` regardless of commas or `?`. -/
theorem classify_short_message (text : String)
    (h1 : emojiOnly text = false)
    (h2 : (normalizedQuery text).data.isEmpty = false)
    (h3 : GREETING_PATTERNS.contains (normalizedQuery text) = false)
    (h4 : THANKS_PATTERNS.contains (normalizedQuery text) = false)
    (first_word : String) (rest : List String)
    (hw : pySplitWs (normalizedQuery text) = first_word :: rest)
    (hlen : (first_word :: rest).length ≤ 3) :
    classify_intent text =
      some
        (if greetingStart (normalizedQuery text) first_word &&
            (!hasPunctuation (normalizedQuery text) ||
              (first_word :: rest).length ≤ 2) then "greeting"
         else if thanksStart (normalizedQuery text) first_word then "thanks"
         else "hr_query") := by
  unfold classify_intent
  simp only [h1, h2, h3, h4, Bool.false_eq_true, if_false, hw]
  rw [if_pos hlen]
  by_cases hg : greetingStart (normalizedQuery text) first_word = true
  · rw [if_pos hg]
    by_cases hp : (!hasPunctuation (normalizedQuery text) ||
        decide ((first_word :: rest).length ≤ 2)) = true
    · rw [if_pos hp]
      conv_rhs => rw [if_pos (show (greetingStart (normalizedQuery text)
        first_word && (!hasPunctuation (normalizedQuery text) ||
          decide ((first_word :: rest).length ≤ 2))) = true by
        rw [hg, hp]; rfl)]
    · have hp' : (!hasPunctuation (normalizedQuery text) ||
          decide ((first_word :: rest).length ≤ 2)) = false :=
        Bool.not_eq_true _ |>.mp hp
      have hcond : (greetingStart (normalizedQuery text) first_word &&
          (!hasPunctuation (normalizedQuery text) ||
            decide ((first_word :: rest).length ≤ 2))) = false := by
        rw [hg, Bool.true_and]; exact hp'
      rw [if_neg hp]
      conv_rhs => rw [if_neg (show ¬ _ = true from by rw [hcond]; simp)]
      split_ifs with ht <;> rfl
  · have hg' : greetingStart (normalizedQuery text) first_word = false :=
      Bool.not_eq_true _ |>.mp hg
    have hcond : (greetingStart (normalizedQuery text) first_word &&
        (!hasPunctuation (normalizedQuery text) ||
          decide ((first_word :: rest).length ≤ 2))) = false := by
      rw [hg', Bool.false_and]
    rw [if_neg hg]
    conv_rhs => rw [if_neg (show ¬ _ = true from by rw [hcond]; simp)]
    split_ifs with ht <;> rfl

/-- Witness for C8 (amended): a 3-word greeting-prefixed message with a
comma is classified `hr_query`. -/
theorem classify_short_message_witness :
    classify_intent "hi you, there" = some "hr_query" := by
  have h := classify_short_message "hi you, there" (by decide) (by decide)
    (by decide) (by decide) "hi" ["you,", "there"] (by decide) (by decide)
  exact h.trans (by decide)

/-- Counterexample to C8 as stated: `"hi a,b"` has 2 words, its first token
is the greeting token `hi`, and it contains a comma, yet it is classified
`greeting` (the code admits any ≤2-word message regardless of commas),
not `hr_query` as the claim requires. -/
theorem classify_short_comma_counterexample :
    (pySplitWs (normalizedQuery "hi a,b")).length ≤ 3 ∧
    GREETING_PATTERNS.contains "hi" = true ∧
    (pySplitWs (normalizedQuery "hi a,b")).head? = some "hi" ∧
    strHasChar (normalizedQuery "hi a,b") ',' = true ∧
    classify_intent "hi a,b" = some "greeting" ∧
    some "greeting" ≠ some "hr_query" := by decide

/-! ### C2: the greeting short-circuit for `"salom"` -/

theorem runTrace_done (env : Env) (settings : GraphSettings) (fuel : Nat)
    (s : AgentState) : runTrace env settings fuel (.done, s) = [] := by
  cases fuel <;> simp [runTrace]

theorem runTrace_succ (env : Env) (settings : GraphSettings) (fuel : Nat)
    (n : NodeName) (s : AgentState) (h : ¬ n = .done) :
    runTrace env settings (fuel + 1) (n, s) =
      (n, (step env settings n s).2) ::
        runTrace env settings fuel (step env settings n s) := by
  simp [runTrace, h]

/-- Amended C2.  For the input `"salom"` the turn short-circuits: the only
nodes run are `intent_router` and `greeting_response` (so no retrieval,
rerank or generator call is issued), the intent is `greeting`, the
returned documents list is empty — but the detected language is `en`
(the short-text heuristic classifies Latin-script text without
Uzbek-specific Cyrillic letters as English), so the final generation is
the English greeting `"Hello! How can I help you with HR policies?"`,
not the Uzbek one. -/
theorem greeting_short_circuit (env : Env) (settings : GraphSettings)
    (fuel : Nat) (s0 : AgentState) (hq : s0.query = "salom") :
    runTrace env settings (fuel + 2) (.intent_router, s0) =
      [(.intent_router, intent_router_node s0),
       (.greeting_response, greeting_response_node env (intent_router_node s0))] ∧
    (intent_router_node s0).intent = some "greeting" ∧
    (greeting_response_node env (intent_router_node s0)).documents = [] ∧
    (greeting_response_node env (intent_router_node s0)).generation =
      "Hello! How can I help you with HR policies?" ∧
    detect_language env.langdetect s0.query = "en" := by
  have hcl : classify_intent "salom" = some "greeting" := by decide
  have hint : (intent_router_node s0).intent = some "greeting" := by
    simp [intent_router_node, hq, hcl]
  have hlang : detect_language env.langdetect "salom" = "en" := by
    unfold detect_language
    rw [if_pos (by decide)]
    decide
  have hroute : route_by_intent (intent_router_node s0) =
      "greeting_response" := by
    simp [route_by_intent, hint]
  have hstep1 : step env settings .intent_router s0 =
      (.greeting_response, intent_router_node s0) := by
    simp [step, hroute]
  have hgen : (greeting_response_node env (intent_router_node s0)).generation =
      "Hello! How can I help you with HR policies?" := by
    unfold greeting_response_node
    simp only [hint, Option.getD_some]
    rw [show (intent_router_node s0).query = "salom" by
      simp [intent_router_node, hq]]
    rw [hlang]
    decide
  refine ⟨?_, hint, by simp [greeting_response_node], hgen, by rw [hq]; exact hlang⟩
  show runTrace env settings (fuel + 1 + 1) (.intent_router, s0) = _
  rw [runTrace_succ env settings (fuel + 1) .intent_router s0 (by simp)]
  rw [hstep1]
  rw [runTrace_succ env settings fuel .greeting_response
    (intent_router_node s0) (by simp)]
  rw [show step env settings .greeting_response (intent_router_node s0) =
    (.done, greeting_response_node env (intent_router_node s0)) from rfl]
  rw [runTrace_done]

/-- Witness for C2 (amended), at a concrete environment and initial state. -/
theorem greeting_short_circuit_witness :
    runTrace {} {} 7 (.intent_router, { query := "salom" }) =
      [(.intent_router, intent_router_node { query := "salom" }),
       (.greeting_response,
        greeting_response_node {} (intent_router_node { query := "salom" }))] ∧
    (intent_router_node { query := "salom" }).intent = some "greeting" ∧
    (greeting_response_node {}
      (intent_router_node { query := "salom" })).documents = [] ∧
    (greeting_response_node {}
      (intent_router_node { query := "salom" })).generation =
      "Hello! How can I help you with HR policies?" ∧
    detect_language ({} : Env).langdetect
      ({ query := "salom" } : AgentState).query = "en" :=
  greeting_short_circuit {} {} 5 { query := "salom" } rfl

/-- Counterexample to C2 as stated: for `"salom"` the detected language is
`en`, not `uz`, and the generation is the English greeting, not
`"Assalomu alaykum! ..."`. -/
theorem greeting_salom_counterexample :
    detect_language (fun _ => none) "salom" = "en" ∧
    "en" ≠ "uz" ∧
    (greeting_response_node {}
      (intent_router_node { query := "salom" })).generation =
      "Hello! How can I help you with HR policies?" ∧
    "Hello! How can I help you with HR policies?" ≠
      "Assalomu alaykum! HR siyosatlari bo\x27yicha qanday yordam bera olaman?" := by
  refine ⟨by decide, by decide, by decide, by decide⟩

/-! ### C5: Reciprocal Rank Fusion -/

theorem alookup_bumpScore_self (s : List (String × ℚ)) (pid : String)
    (d : ℚ) :
    alookup (bumpScore s pid d) pid = some ((alookup s pid).getD 0 + d) := by
  induction s with
  | nil => simp [bumpScore, alookup]
  | cons p rest ih =>
    cases p with
    | mk q v =>
      by_cases h : q = pid
      · subst h; simp [bumpScore, alookup]
      · simp [bumpScore, alookup, h, ih]

theorem alookup_bumpScore_ne (s : List (String × ℚ)) (pid pid' : String)
    (d : ℚ) (h : pid' ≠ pid) :
    alookup (bumpScore s pid d) pid' = alookup s pid' := by
  induction s with
  | nil =>
    simp only [bumpScore, alookup]
    rw [if_neg (fun he : pid = pid' => h he.symm)]
  | cons p rest ih =>
    cases p with
    | mk q v =>
      by_cases hq : q = pid
      · simp only [bumpScore, if_pos hq, alookup]
        rw [if_neg (fun he : q = pid' => h (hq.symm.trans he).symm),
          if_neg (fun he : q = pid' => h (hq.symm.trans he).symm)]
      · simp only [bumpScore, if_neg hq, alookup]
        by_cases hq' : q = pid'
        · rw [if_pos hq', if_pos hq']
        · rw [if_neg hq', if_neg hq']
          exact ih

theorem rrfPass_fst_notMem (k : ℚ) (pts : List RPoint) (pid : String)
    (h : pid ∉ pts.map RPoint.pid) :
    ∀ (r : Nat) (st : List (String × ℚ) × List (String × PEntry)),
      alookup (rrfPass k pts r st).1 pid = alookup st.1 pid := by
  induction pts with
  | nil => intro r st; rfl
  | cons p rest ih =>
    intro r st
    simp only [List.map_cons, List.mem_cons, not_or] at h
    obtain ⟨h1, h2⟩ := h
    cases st with
    | mk sc pd =>
      rw [show rrfPass k (p :: rest) r (sc, pd) =
        rrfPass k rest (r + 1)
          (bumpScore sc p.pid (1 / (k + (r : ℚ) + 1)),
           addIfAbsent pd p.pid (pointEntry p)) from rfl]
      rw [ih h2]
      exact alookup_bumpScore_ne _ _ _ _ h1

theorem rrfPass_fst_rank (k : ℚ) :
    ∀ (pts : List RPoint) (j r : Nat) (pid : String)
      (st : List (String × ℚ) × List (String × PEntry)),
      (pts.map RPoint.pid).Nodup →
      (pts.map RPoint.pid)[j]? = some pid →
      (alookup (rrfPass k pts r st).1 pid).getD 0 =
        (alookup st.1 pid).getD 0 + 1 / (k + ((r + j : Nat) : ℚ) + 1) := by
  intro pts
  induction pts with
  | nil => intro j r pid st _ hj; simp at hj
  | cons p rest ih =>
    intro j r pid st hnd hj
    cases st with
    | mk sc pd =>
      have hstep : rrfPass k (p :: rest) r (sc, pd) =
          rrfPass k rest (r + 1)
            (bumpScore sc p.pid (1 / (k + (r : ℚ) + 1)),
             addIfAbsent pd p.pid (pointEntry p)) := rfl
      have hnd' : (rest.map RPoint.pid).Nodup :=
        (List.nodup_cons.mp (by simpa using hnd)).2
      have hhead : p.pid ∉ rest.map RPoint.pid :=
        (List.nodup_cons.mp (by simpa using hnd)).1
      cases j with
      | zero =>
        have hpid : pid = p.pid := by
          simp only [List.map_cons, List.getElem?_cons_zero,
            Option.some.injEq] at hj
          exact hj.symm
        subst hpid
        rw [hstep, rrfPass_fst_notMem k rest _ hhead]
        dsimp only
        rw [alookup_bumpScore_self]
        simp
      | succ j' =>
        have hj' : (rest.map RPoint.pid)[j']? = some pid := by
          simpa using hj
        have hmem : pid ∈ rest.map RPoint.pid := List.getElem?_mem hj'
        have hne : pid ≠ p.pid := fun he => hhead (he ▸ hmem)
        rw [hstep, ih j' (r + 1) pid _ hnd' hj']
        dsimp only
        rw [alookup_bumpScore_ne _ _ _ _ hne]
        have hcast : ((r + 1 + j' : Nat) : ℚ) = ((r + (j' + 1) : Nat) : ℚ) := by
          push_cast
          ring
        rw [hcast]

theorem keys_bumpScore (s : List (String × ℚ)) (pid : String) (d : ℚ) :
    (bumpScore s pid d).map Prod.fst =
      if pid ∈ s.map Prod.fst then s.map Prod.fst
      else s.map Prod.fst ++ [pid] := by
  induction s with
  | nil => simp [bumpScore]
  | cons p rest ih =>
    cases p with
    | mk q v =>
      by_cases h : q = pid
      · subst h; simp [bumpScore]
      · simp only [bumpScore, if_neg h, List.map_cons, ih]
        by_cases hm : pid ∈ rest.map Prod.fst
        · rw [if_pos hm, if_pos (List.mem_cons.mpr (Or.inr hm))]
        · rw [if_neg hm,
            if_neg (fun hc => by
              rcases List.mem_cons.mp hc with he | hm2
              · exact h he.symm
              · exact hm hm2)]
          simp

theorem nodup_keys_bumpScore (s : List (String × ℚ)) (pid : String) (d : ℚ)
    (h : (s.map Prod.fst).Nodup) :
    ((bumpScore s pid d).map Prod.fst).Nodup := by
  rw [keys_bumpScore]
  split
  · exact h
  · rename_i hnm
    rw [← List.concat_eq_append]
    exact h.concat hnm

theorem rrfPass_keys_nodup (k : ℚ) :
    ∀ (pts : List RPoint) (r : Nat)
      (st : List (String × ℚ) × List (String × PEntry)),
      (st.1.map Prod.fst).Nodup →
      ((rrfPass k pts r st).1.map Prod.fst).Nodup := by
  intro pts
  induction pts with
  | nil => intro r st h; exact h
  | cons p rest ih =>
    intro r st h
    cases st with
    | mk sc pd =>
      exact ih (r + 1) _ (nodup_keys_bumpScore sc p.pid _ h)

theorem alookup_eq_some_of_mem {β : Type} (s : List (String × β))
    (h : (s.map Prod.fst).Nodup) (p : String × β) (hp : p ∈ s) :
    alookup s p.1 = some p.2 := by
  induction s with
  | nil => exact absurd hp (List.not_mem_nil p)
  | cons q rest ih =>
    rcases List.mem_cons.mp hp with rfl | hmem
    · cases p with
      | mk a b => simp [alookup]
    · cases q with
      | mk a b =>
        have hnm : a ∉ rest.map Prod.fst := (List.nodup_cons.mp h).1
        have hne : a ≠ p.1 := by
          intro he
          exact hnm (he ▸ List.mem_map_of_mem Prod.fst hmem)
        simp only [alookup, if_neg hne]
        exact ih (List.nodup_cons.mp h).2 hmem

/-- C5.  In `_rrf_fuse`, a point appearing at rank `r1` in the dense list
and `r2` in the lexical list (each with distinct ids) receives the fused
score `1/(k+r1+1) + 1/(k+r2+1)`; the returned entries are sorted by fused
score descending, and every returned entry carries the fused score of its
id. -/
theorem rrf_fuse_spec (k : ℚ) (dense_points text_points : List RPoint)
    (top_k r1 r2 : Nat) (pid : String)
    (hd : (dense_points.map RPoint.pid).Nodup)
    (ht : (text_points.map RPoint.pid).Nodup)
    (h1 : (dense_points.map RPoint.pid)[r1]? = some pid)
    (h2 : (text_points.map RPoint.pid)[r2]? = some pid) :
    rrf_score k dense_points text_points pid =
      1 / (k + (r1 : ℚ) + 1) + 1 / (k + (r2 : ℚ) + 1) ∧
    List.Pairwise (fun a b => b.score ≤ a.score)
      (rrf_fuse k dense_points text_points top_k) ∧
    (∀ e ∈ rrf_fuse k dense_points text_points top_k,
      e.score = rrf_score k dense_points text_points e.id) := by
  refine ⟨?_, ?_, ?_⟩
  · unfold rrf_score
    dsimp only
    rw [rrfPass_fst_rank k text_points r2 0 pid _ ht h2,
      rrfPass_fst_rank k dense_points r1 0 pid _ hd h1]
    simp [alookup]
  · unfold rrf_fuse
    dsimp only
    refine List.Pairwise.map _ (fun (a b : String × ℚ) hab => hab) ?_
    exact (pySortDesc_pairwise (fun pr : String × ℚ => pr.2) _).sublist
      (List.take_sublist _ _)
  · intro e he
    unfold rrf_fuse at he
    dsimp only at he
    rcases List.mem_map.mp he with ⟨pr, hpr, hfe⟩
    have hkeys : (((rrfPass k text_points 0
        (rrfPass k dense_points 0 ([], []))).1).map Prod.fst).Nodup := by
      refine rrfPass_keys_nodup k text_points 0 _ ?_
      refine rrfPass_keys_nodup k dense_points 0 ([], []) ?_
      simp
    have hmem : pr ∈ (rrfPass k text_points 0
        (rrfPass k dense_points 0 ([], []))).1 := by
      have hperm := pySortDesc_perm (fun pr : String × ℚ => pr.2)
        (rrfPass k text_points 0 (rrfPass k dense_points 0 ([], []))).1
      exact hperm.mem_iff.mp (List.take_subset _ _ hpr)
    have hlook := alookup_eq_some_of_mem _ hkeys pr hmem
    rw [← hfe]
    dsimp only
    unfold rrf_score
    dsimp only
    rw [hlook]
    rfl

/-- Witness for C5: the RRF unit scenario — dense `[A,B,C]`, lexical
`[B,D,A]`, `k = 40`: A scores `1/41 + 1/43`, and the fused output is
sorted by score descending. -/
theorem rrf_fuse_spec_witness :
    rrf_score 40 [⟨"A", []⟩, ⟨"B", []⟩, ⟨"C", []⟩]
      [⟨"B", []⟩, ⟨"D", []⟩, ⟨"A", []⟩] "A" = 1 / 41 + 1 / 43 ∧
    List.Pairwise (fun a b => b.score ≤ a.score)
      (rrf_fuse 40 [⟨"A", []⟩, ⟨"B", []⟩, ⟨"C", []⟩]
        [⟨"B", []⟩, ⟨"D", []⟩, ⟨"A", []⟩] 10) := by
  have h := rrf_fuse_spec 40 [⟨"A", []⟩, ⟨"B", []⟩, ⟨"C", []⟩]
    [⟨"B", []⟩, ⟨"D", []⟩, ⟨"A", []⟩] 10 0 2 "A"
    (by decide) (by decide) (by decide) (by decide)
  refine ⟨?_, h.2.1⟩
  rw [h.1]
  norm_num

/-! ### C6: retrieve-stage deduplication and ordering -/

theorem alookup_bumpDoc_ne (m : List (String × Doc)) (did pid : String)
    (doc : Doc) (h : pid ≠ did) :
    alookup (bumpDoc m did doc) pid = alookup m pid := by
  induction m with
  | nil =>
    simp only [bumpDoc, alookup]
    rw [if_neg (fun he : did = pid => h he.symm)]
  | cons p rest ih =>
    cases p with
    | mk q v =>
      by_cases hq : q = did
      · have hne2 : ¬ q = pid := fun he => h (hq.symm.trans he).symm
        by_cases hlt : v.score < doc.score
        · simp only [bumpDoc, if_pos hq, if_pos hlt, alookup, if_neg hne2]
        · simp only [bumpDoc, if_pos hq, if_neg hlt, alookup, if_neg hne2]
      · simp only [bumpDoc, if_neg hq, alookup]
        by_cases hq' : q = pid
        · rw [if_pos hq', if_pos hq']
        · rw [if_neg hq', if_neg hq']
          exact ih

theorem bumpDoc_lookup_self (m : List (String × Doc)) (did : String)
    (doc : Doc) :
    ∃ w, alookup (bumpDoc m did doc) did = some w ∧
      (w = doc ∨ alookup m did = some w) ∧ doc.score ≤ w.score ∧
      ∀ v, alookup m did = some v → v.score ≤ w.score := by
  induction m with
  | nil =>
    refine ⟨doc, by simp [bumpDoc, alookup], Or.inl rfl, le_refl _, ?_⟩
    intro v hv
    simp [alookup] at hv
  | cons p rest ih =>
    cases p with
    | mk q v0 =>
      by_cases hq : q = did
      · by_cases hlt : v0.score < doc.score
        · refine ⟨doc, ?_, Or.inl rfl, le_refl _, ?_⟩
          · simp [bumpDoc, alookup, hq, hlt]
          · intro v hv
            simp only [alookup, if_pos hq] at hv
            cases hv
            exact le_of_lt hlt
        · refine ⟨v0, ?_, Or.inr (by simp [alookup, hq]), le_of_not_lt hlt, ?_⟩
          · simp [bumpDoc, alookup, hq, hlt]
          · intro v hv
            simp only [alookup, if_pos hq] at hv
            cases hv
            exact le_refl _
      · obtain ⟨w, hw1, hw2, hw3, hw4⟩ := ih
        refine ⟨w, ?_, ?_, hw3, ?_⟩
        · simp [bumpDoc, alookup, hq, hw1]
        · rcases hw2 with rfl | hl
          · exact Or.inl rfl
          · exact Or.inr (by simp [alookup, hq, hl])
        · intro v hv
          simp only [alookup, if_neg hq] at hv
          exact hw4 v hv

theorem keys_bumpDoc (m : List (String × Doc)) (did : String) (doc : Doc) :
    (bumpDoc m did doc).map Prod.fst =
      if did ∈ m.map Prod.fst then m.map Prod.fst
      else m.map Prod.fst ++ [did] := by
  induction m with
  | nil => simp [bumpDoc]
  | cons p rest ih =>
    cases p with
    | mk q v =>
      by_cases h : q = did
      · subst h
        by_cases hlt : v.score < doc.score <;> simp [bumpDoc, hlt]
      · simp only [bumpDoc, if_neg h, List.map_cons, ih]
        by_cases hm : did ∈ rest.map Prod.fst
        · rw [if_pos hm, if_pos (List.mem_cons.mpr (Or.inr hm))]
        · rw [if_neg hm,
            if_neg (fun hc => by
              rcases List.mem_cons.mp hc with he | hm2
              · exact h he.symm
              · exact hm hm2)]
          simp

theorem values_id_bumpDoc (m : List (String × Doc)) (did : String)
    (doc : Doc) (hdoc : doc.id = did) (h : ∀ p ∈ m, (p.2).id = p.1) :
    ∀ p ∈ bumpDoc m did doc, (p.2).id = p.1 := by
  induction m with
  | nil =>
    intro p hp
    simp only [bumpDoc, List.mem_singleton] at hp
    subst hp
    exact hdoc
  | cons q rest ih =>
    intro p hp
    cases q with
    | mk qk qv =>
      by_cases hq : qk = did
      · simp only [bumpDoc, if_pos hq] at hp
        rcases List.mem_cons.mp hp with rfl | hmem
        · split
          · exact hq ▸ hdoc
          · exact h (qk, qv) (List.mem_cons_self _ _)
        · exact h p (List.mem_cons_of_mem _ hmem)
      · simp only [bumpDoc, if_neg hq] at hp
        rcases List.mem_cons.mp hp with rfl | hmem
        · exact h (qk, qv) (List.mem_cons_self _ _)
        · exact ih (fun p hp => h p (List.mem_cons_of_mem _ hp)) p hmem

theorem bumpDoc_values_origin (m : List (String × Doc)) (did : String)
    (doc : Doc) :
    ∀ p ∈ bumpDoc m did doc, p.2 = doc ∨ p ∈ m := by
  induction m with
  | nil =>
    intro p hp
    simp only [bumpDoc, List.mem_singleton] at hp
    subst hp
    exact Or.inl rfl
  | cons q rest ih =>
    intro p hp
    cases q with
    | mk qk qv =>
      by_cases hq : qk = did
      · simp only [bumpDoc, if_pos hq] at hp
        rcases List.mem_cons.mp hp with rfl | hmem
        · split
          · exact Or.inl rfl
          · exact Or.inr (List.mem_cons_self _ _)
        · exact Or.inr (List.mem_cons_of_mem _ hmem)
      · simp only [bumpDoc, if_neg hq] at hp
        rcases List.mem_cons.mp hp with rfl | hmem
        · exact Or.inr (List.mem_cons_self _ _)
        · rcases ih p hmem with h1 | h2
          · exact Or.inl h1
          · exact Or.inr (List.mem_cons_of_mem _ h2)

theorem bumpAll_wf (docs : List Doc) :
    ∀ (m : List (String × Doc)),
      (m.map Prod.fst).Nodup → (∀ p ∈ m, (p.2).id = p.1) →
      ((bumpAll docs m).map Prod.fst).Nodup ∧
      (∀ p ∈ bumpAll docs m, (p.2).id = p.1) ∧
      (∀ p ∈ bumpAll docs m, p.2 ∈ docs ∨ p ∈ m) := by
  induction docs with
  | nil => intro m h1 h2; exact ⟨h1, h2, fun p hp => Or.inr hp⟩
  | cons d rest ih =>
    intro m h1 h2
    have hstep : bumpAll (d :: rest) m = bumpAll rest (bumpDoc m d.id d) :=
      rfl
    have hk : ((bumpDoc m d.id d).map Prod.fst).Nodup := by
      rw [keys_bumpDoc]
      split
      · exact h1
      · rename_i hnm
        rw [← List.concat_eq_append]
        exact h1.concat hnm
    have hv : ∀ p ∈ bumpDoc m d.id d, (p.2).id = p.1 :=
      values_id_bumpDoc m d.id d rfl h2
    obtain ⟨w1, w2, w3⟩ := ih (bumpDoc m d.id d) hk hv
    rw [hstep]
    refine ⟨w1, w2, fun p hp => ?_⟩
    rcases w3 p hp with hr | hm
    · exact Or.inl (List.mem_cons_of_mem _ hr)
    · rcases bumpDoc_values_origin m d.id d p hm with he | hmm
      · exact Or.inl (he ▸ List.mem_cons_self _ _)
      · exact Or.inr hmm

theorem bumpAll_mono (docs : List Doc) :
    ∀ (m : List (String × Doc)) (pid : String) (w : Doc),
      alookup m pid = some w →
      ∃ w', alookup (bumpAll docs m) pid = some w' ∧ w.score ≤ w'.score := by
  induction docs with
  | nil => intro m pid w h; exact ⟨w, h, le_refl _⟩
  | cons d rest ih =>
    intro m pid w h
    by_cases hp : pid = d.id
    · rw [hp] at h ⊢
      obtain ⟨w1, hl, _, _, hdom⟩ := bumpDoc_lookup_self m d.id d
      obtain ⟨w', hl', hs'⟩ := ih (bumpDoc m d.id d) d.id w1 hl
      exact ⟨w', hl', le_trans (hdom w h) hs'⟩
    · have := alookup_bumpDoc_ne m d.id pid d hp
      obtain ⟨w', hl', hs'⟩ := ih (bumpDoc m d.id d) pid w (this.trans h)
      exact ⟨w', hl', hs'⟩

theorem bumpAll_dominates (docs : List Doc) :
    ∀ (m : List (String × Doc)) (doc : Doc), doc ∈ docs →
      ∃ w, alookup (bumpAll docs m) doc.id = some w ∧
        doc.score ≤ w.score := by
  induction docs with
  | nil => intro m doc h; cases h
  | cons d rest ih =>
    intro m doc hdoc
    rcases List.mem_cons.mp hdoc with rfl | hmem
    · obtain ⟨w1, hl, _, hscore, _⟩ := bumpDoc_lookup_self m doc.id doc
      obtain ⟨w', hl', hs'⟩ := bumpAll_mono rest _ _ _ hl
      exact ⟨w', hl', le_trans hscore hs'⟩
    · exact ih _ doc hmem

theorem mem_of_alookup {β : Type} (s : List (String × β)) (pid : String)
    (w : β) (h : alookup s pid = some w) : (pid, w) ∈ s := by
  induction s with
  | nil => simp [alookup] at h
  | cons p rest ih =>
    cases p with
    | mk q v =>
      by_cases hq : q = pid
      · subst hq
        rw [show alookup ((q, v) :: rest) q = some v from by
          simp [alookup]] at h
        cases h
        exact List.mem_cons_self _ _
      · simp only [alookup, if_neg hq] at h
        exact List.mem_cons_of_mem _ (ih h)

theorem mergeSearchResults_eq_bumpAll
    (results : List (Except String (List Doc))) :
    ∀ init, mergeSearchResults results init = bumpAll (okDocs results) init := by
  induction results with
  | nil => intro init; rfl
  | cons r rest ih =>
    intro init
    cases r with
    | error e => exact ih init
    | ok docs =>
      have : mergeSearchResults (.ok docs :: rest) init =
          mergeSearchResults rest (bumpAll docs init) := rfl
      rw [this, ih, show okDocs (.ok docs :: rest) = docs ++ okDocs rest
        from rfl]
      unfold bumpAll
      rw [List.foldl_append]

theorem boostDocs_map_id (lang : String) (documents : List Doc) :
    (boostDocs lang documents).map Doc.id = documents.map Doc.id := by
  unfold boostDocs
  split
  · rw [List.map_map]
    refine List.map_congr_left fun doc _ => ?_
    dsimp only [Function.comp]
    split <;> rfl
  · rfl

theorem boostDocs_mem_map {lang : String} {documents : List Doc} {d : Doc}
    (h : d ∈ boostDocs lang documents) :
    ∃ d0 ∈ documents, d.id = d0.id := by
  unfold boostDocs at h
  split at h
  · rcases List.mem_map.mp h with ⟨d0, hd0, heq⟩
    refine ⟨d0, hd0, ?_⟩
    rw [← heq]
    split <;> rfl
  · exact ⟨d, h, rfl⟩

/-- C6.  Outputs of the retrieve stage carry no duplicate ids (merging by
point id keeps the higher-scoring entry) and are sorted by score
descending.  The third conjunct states the max-keep property of the
dedup map: every input document is dominated by the entry kept under its
id, and that entry is itself one of the input documents. -/
theorem retrieve_documents_spec
    (search_results : List (Except String (List Doc)))
    (hyde_docs : Option (List Doc)) (lang : String) :
    ((retrieve_documents search_results hyde_docs lang).map Doc.id).Nodup ∧
    List.Pairwise (fun a b => b.score ≤ a.score)
      (retrieve_documents search_results hyde_docs lang) ∧
    (∀ doc ∈ okDocs search_results ++ hyde_docs.getD [],
      ∃ w, alookup
          (bumpAll (okDocs search_results ++ hyde_docs.getD []) [])
          doc.id = some w ∧
        doc.score ≤ w.score ∧ w.id = doc.id ∧
        w ∈ okDocs search_results ++ hyde_docs.getD []) := by
  have hwf := bumpAll_wf (okDocs search_results ++ hyde_docs.getD []) []
    (by simp) (by simp)
  have hout : retrieve_documents search_results hyde_docs lang =
      pySortDesc Doc.score (boostDocs lang
        ((bumpAll (okDocs search_results ++ hyde_docs.getD []) []).map
          (fun kv : String × Doc => kv.2))) := by
    cases hyde_docs with
    | none =>
      unfold retrieve_documents
      dsimp only
      rw [mergeSearchResults_eq_bumpAll]
      simp
    | some docs =>
      unfold retrieve_documents
      dsimp only
      rw [mergeSearchResults_eq_bumpAll]
      rw [show bumpAll docs (bumpAll (okDocs search_results) []) =
        bumpAll (okDocs search_results ++ docs) [] from by
          unfold bumpAll
          rw [List.foldl_append]]
      simp
  refine ⟨?_, ?_, ?_⟩
  · rw [hout]
    have hperm : ((pySortDesc Doc.score (boostDocs lang
        ((bumpAll (okDocs search_results ++ hyde_docs.getD []) []).map
          (fun kv : String × Doc => kv.2)))).map Doc.id).Perm
        ((boostDocs lang
          ((bumpAll (okDocs search_results ++ hyde_docs.getD []) []).map
            (fun kv : String × Doc => kv.2))).map Doc.id) :=
      (pySortDesc_perm Doc.score _).map Doc.id
    rw [hperm.nodup_iff, boostDocs_map_id, List.map_map]
    have : ((bumpAll (okDocs search_results ++ hyde_docs.getD []) []).map
        (Doc.id ∘ fun kv : String × Doc => kv.2)) =
        ((bumpAll (okDocs search_results ++ hyde_docs.getD []) []).map
          Prod.fst) := by
      refine List.map_congr_left fun p hp => ?_
      exact hwf.2.1 p hp
    rw [this]
    exact hwf.1
  · rw [hout]
    exact pySortDesc_pairwise Doc.score _
  · intro doc hdoc
    obtain ⟨w, hl, hs⟩ :=
      bumpAll_dominates (okDocs search_results ++ hyde_docs.getD []) []
        doc hdoc
    have hmem := mem_of_alookup _ _ _ hl
    refine ⟨w, hl, hs, hwf.2.1 _ hmem, ?_⟩
    rcases hwf.2.2 _ hmem with h1 | h2
    · exact h1
    · cases h2

/-- Witness for C6: two queries (one failing) with a duplicate id `x`; the
higher-scoring duplicate is kept and the output is sorted descending. -/
theorem retrieve_documents_spec_witness :
    ((retrieve_documents
      [.ok [{ id := "x", score := 1 }, { id := "y", score := 2 }],
       .error "boom",
       .ok [{ id := "x", score := 3 }]] none "en").map Doc.id = ["x", "y"] ∧
    (retrieve_documents
      [.ok [{ id := "x", score := 1 }, { id := "y", score := 2 }],
       .error "boom",
       .ok [{ id := "x", score := 3 }]] none "en").map Doc.score = [3, 2]) ∧
    List.Pairwise (fun a b => b.score ≤ a.score)
      (retrieve_documents
        [.ok [{ id := "x", score := 1 }, { id := "y", score := 2 }],
         .error "boom",
         .ok [{ id := "x", score := 3 }]] none "en") := by
  refine ⟨⟨by decide, by decide⟩, ?_⟩
  exact (retrieve_documents_spec
    [.ok [{ id := "x", score := 1 }, { id := "y", score := 2 }],
     .error "boom",
     .ok [{ id := "x", score := 3 }]] none "en").2.1

/-! ### C7: the retries counter -/

theorem retries_query_prepare (env : Env) (s : AgentState) :
    (query_prepare_node env s).retries = s.retries := by
  unfold query_prepare_node
  cases env.prep <;> rfl

theorem retries_rerank (env : Env) (set : GraphSettings) (s : AgentState) :
    (rerank_node env set s).retries = s.retries := by
  unfold rerank_node
  split <;> rfl

/-- One workflow step: retries never decrease, only the rewrite node
changes them (by exactly one), and the rewrite node is entered only with
`retries < 3`. -/
theorem step_inv (env : Env) (set : GraphSettings) (n : NodeName)
    (s : AgentState) (h1 : s.retries ≤ 3)
    (h2 : n = .rewrite_query → s.retries < 3) :
    (step env set n s).2.retries ≤ 3 ∧
    s.retries ≤ (step env set n s).2.retries ∧
    ((step env set n s).1 = .rewrite_query →
      (step env set n s).2.retries < 3) := by
  cases n with
  | intent_router =>
    refine ⟨h1, le_refl _, ?_⟩
    simp only [step]
    split <;> simp
  | greeting_response => exact ⟨h1, le_refl _, by simp [step]⟩
  | query_prepare =>
    refine ⟨?_, ?_, by simp [step]⟩ <;>
      simp [step, retries_query_prepare, h1]
  | retrieve => exact ⟨h1, le_refl _, by simp [step]⟩
  | rerank =>
    refine ⟨?_, ?_, by simp [step]⟩ <;>
      simp [step, retries_rerank, h1]
  | grade_documents =>
    have hr : (grade_documents_node s).retries = s.retries := rfl
    refine ⟨by simpa [step, hr] using h1, by simp [step, hr], ?_⟩
    simp only [step]
    split
    · simp
    · rename_i hcond
      intro _
      show (grade_documents_node s).retries < 3
      rw [hr]
      unfold should_retry at hcond
      split_ifs at hcond with hd hretr
      · exact absurd rfl hcond
      · exact absurd rfl hcond
      · omega
  | expand_context => exact ⟨h1, le_refl _, by simp [step]⟩
  | generate => exact ⟨h1, le_refl _, by simp [step]⟩
  | rewrite_query =>
    have hlt := h2 rfl
    have hr : (rewrite_query_node env s).retries = s.retries + 1 := rfl
    refine ⟨by simp [step, hr]; omega, by simp [step, hr], by simp [step]⟩
  | done => exact ⟨h1, le_refl _, fun h => by simp [step] at h⟩

theorem runTrace_retries (env : Env) (set : GraphSettings) :
    ∀ (fuel : Nat) (n : NodeName) (s : AgentState),
      s.retries ≤ 3 → (n = .rewrite_query → s.retries < 3) →
      (∀ p ∈ runTrace env set fuel (n, s), p.2.retries ≤ 3) ∧
      List.Chain' (fun a b => a.2.retries ≤ b.2.retries)
        (runTrace env set fuel (n, s)) ∧
      (∀ p ∈ (runTrace env set fuel (n, s)).head?, s.retries ≤ p.2.retries) := by
  intro fuel
  induction fuel with
  | zero =>
    intro n s _ _
    refine ⟨by simp [runTrace], by simp [runTrace], by simp [runTrace]⟩
  | succ fuel ih =>
    intro n s h1 h2
    by_cases hn : n = .done
    · subst hn
      rw [runTrace_done]
      refine ⟨by simp, by simp, by simp⟩
    · rw [runTrace_succ env set fuel n s hn]
      obtain ⟨k1, k2, k3⟩ := step_inv env set n s h1 h2
      obtain ⟨t1, t2, t3⟩ := ih (step env set n s).1 (step env set n s).2 k1 k3
      refine ⟨?_, ?_, ?_⟩
      · intro p hp
        rcases List.mem_cons.mp hp with rfl | hm
        · exact k1
        · exact t1 p (by
            have : runTrace env set fuel (step env set n s) =
                runTrace env set fuel
                  ((step env set n s).1, (step env set n s).2) := by
              rfl
            rw [← this]
            exact hm)
      · rw [List.chain'_cons']
        refine ⟨fun b hb => ?_, by
          have : runTrace env set fuel (step env set n s) =
              runTrace env set fuel
                ((step env set n s).1, (step env set n s).2) := rfl
          rw [this]
          exact t2⟩
        have : runTrace env set fuel (step env set n s) =
            runTrace env set fuel
              ((step env set n s).1, (step env set n s).2) := rfl
        rw [this] at hb
        exact t3 b hb
      · intro p hp
        simp only [List.head?_cons, Option.mem_def, Option.some.injEq] at hp
        subst hp
        exact k2

/-- C7.  Along any run of the graph from a fresh turn state
(`retries = 0`): `retries ≤ 3` on every emitted state, `retries` is
monotonically non-decreasing, the rewrite node is the only step that
changes `retries` (incrementing it by exactly one), and `should_retry`
routes to `rewrite` exactly when the documents list is empty and
`retries < 3` (otherwise it routes to `generate`). -/
theorem retries_bounded_monotone (env : Env) (set : GraphSettings)
    (fuel : Nat) (s0 : AgentState) (h0 : s0.retries = 0) :
    (∀ p ∈ runTrace env set fuel (.intent_router, s0), p.2.retries ≤ 3) ∧
    List.Chain' (fun a b => a.2.retries ≤ b.2.retries)
      (runTrace env set fuel (.intent_router, s0)) ∧
    (∀ s : AgentState, (rewrite_query_node env s).retries = s.retries + 1) ∧
    (∀ (n : NodeName) (s : AgentState), n ≠ .rewrite_query →
      (step env set n s).2.retries = s.retries) ∧
    (∀ s : AgentState,
      should_retry s = "rewrite" ↔ s.documents = [] ∧ s.retries < 3) := by
  have hrun := runTrace_retries env set fuel .intent_router s0
    (by omega) (by simp)
  refine ⟨hrun.1, hrun.2.1, fun s => rfl, ?_, ?_⟩
  · intro n s hn
    cases n with
    | intent_router => rfl
    | greeting_response => rfl
    | query_prepare => exact retries_query_prepare env s
    | retrieve => rfl
    | rerank => exact retries_rerank env set s
    | grade_documents => rfl
    | expand_context => rfl
    | generate => rfl
    | rewrite_query => exact absurd rfl hn
    | done => rfl
  · intro s
    unfold should_retry
    constructor
    · intro h
      split_ifs at h with hd hr
      · exact absurd h (by decide)
      · exact absurd h (by decide)
      · refine ⟨?_, by omega⟩
        simpa [List.isEmpty_iff] using hd
    · rintro ⟨hdocs, hr⟩
      rw [if_neg (by simp [hdocs]), if_neg (by omega)]

/-- Witness for C7: a turn whose searches all return empty runs the full
rewrite loop; retries over the trace are `0,…,1,…,2,…,3,…` and stay ≤ 3. -/
theorem retries_bounded_monotone_witness :
    List.Chain' (fun a b => a.2.retries ≤ b.2.retries)
      (runTrace {} {} 25
        (.intent_router, { query := "what is the annual leave policy" })) ∧
    (runTrace {} {} 25
      (.intent_router,
       { query := "what is the annual leave policy" })).map
        (fun p => p.2.retries) =
      [0, 0, 0, 0, 0, 1, 1, 1, 1, 2, 2, 2, 2, 3, 3, 3, 3, 3, 3] ∧
    (should_retry { query := "q" } = "rewrite" ↔
      ({ query := "q" } : AgentState).documents = [] ∧
        ({ query := "q" } : AgentState).retries < 3) := by
  have h := retries_bounded_monotone {} {} 25
    { query := "what is the annual leave policy" } rfl
  exact ⟨h.2.1, by decide, h.2.2.2.2 _⟩

/-! ### C9: validate_input raise conditions and non-fatal PII masking -/

/-- C9: `validate_input` errors (a raised `GuardrailViolation`) exactly when
the query is empty or whitespace-only, longer than `max_length`, matches a
prompt-injection pattern, has a special-character ratio above 0.4, or
matches a SQL-injection / shell-metacharacter pattern; otherwise it
returns the PII-masked query, a warning exactly when PII was masked, and
`passed = true` — PII alone never raises.  The second conjunct exercises
the masking on a concrete e-mail address. -/
theorem validate_input_spec (query : String) (max_length : Nat) :
    ((validate_input query max_length).toOption =
      if query.isEmpty || (pyStrip query).isEmpty
          || decide (max_length < query.length)
          || injection_pattern_hit (pyLower query)
          || special_char_ratio_high query
          || detect_malicious_patterns query
        then none
        else some
          { original_query := query,
            masked_query := (mask_pii query).2,
            warnings := if (mask_pii query).1
              then ["PII detected and masked in query"] else [],
            passed := true }) ∧
    validate_input "email me at alice@acme.com about salary" 2000 =
      .ok { original_query := "email me at alice@acme.com about salary",
            masked_query := "email me at [EMAIL] about salary",
            warnings := ["PII detected and masked in query"],
            passed := true } := by
  constructor
  · have hd : detect_prompt_injection query
        = (injection_pattern_hit (pyLower query)
            || special_char_ratio_high query) := rfl
    unfold validate_input
    rw [hd]
    cases h1 : (query.isEmpty || (pyStrip query).isEmpty) <;>
      rcases Nat.lt_or_ge max_length query.length with h2 | h2 <;>
        cases h3 : injection_pattern_hit (pyLower query) <;>
          cases h4 : special_char_ratio_high query <;>
            cases h5 : detect_malicious_patterns query <;>
              simp_all [Except.toOption, Nat.not_lt_of_le]
  · rfl

end AgenticRag
